import Mathlib

/-!
A shallow embedding of the schema-to-OpenAPI transformation core of
`scripts/openspec.py` (Infoblox NIOS WAPI → OpenAPI generator), together
with theorems checking the natural-language specification against it.

Python dictionaries are modelled as insertion-ordered association lists
over a JSON-like value type `JVal`; Python dict assignment keeps the
position of an existing key and appends new keys at the end, which the
`setKey` operation reproduces.  Fallible code paths (a raised exception)
are modelled with `Except Unit`.
-/

namespace OpenSpec

/-- JSON-like values, the shape of the Python dict/list/scalar data the
generator manipulates. -/
inductive JVal : Type where
  | str (s : String)
  | num (n : Nat)
  | bool (b : Bool)
  | arr (vs : List JVal)
  | obj (kvs : List (String × JVal))

/-- A Python dict with string keys: an insertion-ordered association list. -/
abbrev JObj := List (String × JVal)

/-- `d.get(k)`: first value bound to `k`, if any. -/
def getKey (kvs : JObj) (k : String) : Option JVal :=
  match kvs with
  | [] => none
  | (k', v) :: rest => if k' = k then some v else getKey rest k

/-- `k in d` as a Bool. -/
def hasKeyB (kvs : JObj) (k : String) : Bool :=
  (getKey kvs k).isSome

/-- `d[k] = v`: replace the value at an existing key in place, else append. -/
def setKey (kvs : JObj) (k : String) (v : JVal) : JObj :=
  match kvs with
  | [] => [(k, v)]
  | (k', v') :: rest => if k' = k then (k', v) :: rest else (k', v') :: setKey rest k v

/-- `del d[k]` (modelled as removing every binding of `k`; the embedded
dicts never hold duplicate keys, and the source only deletes keys it has
just checked or set, so a KeyError never occurs on the modelled paths). -/
def delKey (kvs : JObj) (k : String) : JObj :=
  match kvs with
  | [] => []
  | (k', v) :: rest => if k' = k then delKey rest k else (k', v) :: delKey rest k

/-- Python `c in s` for a single character. -/
def charIn (c : Char) (s : String) : Bool :=
  s.data.contains c

/-- Python `x in l` for a list of strings. -/
def memStr (l : List String) (x : String) : Bool :=
  match l with
  | [] => false
  | y :: rest => if y = x then true else memStr rest x

/-- Python `str.lower()` (ASCII model). -/
def strLower (s : String) : String :=
  String.mk (s.data.map Char.toLower)

/-- Replace every colon by an underscore (`str.replace(':', '_')`). -/
def colonToUnderscore (s : String) : String :=
  String.mk (s.data.map (fun c => if c = ':' then '_' else c))

/-- Split a character list at every occurrence of `sep`, keeping empty
segments, like Python's `str.split(sep)`. -/
def splitOnChar (sep : Char) (cs : List Char) : List (List Char) :=
  cs.foldr
    (fun c acc =>
      if c = sep then [] :: acc
      else
        match acc with
        | [] => [[c]]
        | g :: gs => (c :: g) :: gs)
    [[]]

/-- Python `str.capitalize()`: first character upper-cased, the rest
lower-cased. -/
def pyCapitalize (cs : List Char) : List Char :=
  match cs with
  | [] => []
  | c :: rest => c.toUpper :: rest.map Char.toLower

/-- `to_pascal_case` from the source: substitute colons by underscores,
split on underscores, capitalize each word and concatenate. -/
def to_pascal_case (snake_str : String) : String :=
  if snake_str = "" then ""
  else
    let s := colonToUnderscore snake_str
    String.mk (((splitOnChar '_' s.data).map pyCapitalize).flatten)

/-- `to_snake_case` from the source (only replaces colons). -/
def to_snake_case (object_name : String) : String :=
  if object_name = "" then "" else colonToUnderscore object_name

/-- The whitespace class of the first regex in the description cleanup,
`[\n\r\t\f\v]`. -/
def isDocWs (c : Char) : Bool :=
  c = '\n' || c = '\r' || c = '\t' || c = '\x0c' || c = '\x0b'

/-- Collapse runs of spaces to a single space (the `\s+` → `' '` pass;
after the first pass only plain spaces remain in the whitespace class). -/
def collapseSpaces (cs : List Char) : List Char :=
  cs.foldr
    (fun c acc =>
      if c = ' ' then
        match acc with
        | ' ' :: _ => acc
        | _ => c :: acc
      else c :: acc)
    []

/-- Strip leading and trailing spaces. -/
def stripSpaces (cs : List Char) : List Char :=
  ((cs.dropWhile (fun c => c = ' ')).reverse.dropWhile (fun c => c = ' ')).reverse

/-- The description cleanup in `process_field`: map the control
whitespace characters to spaces, collapse whitespace runs, strip. -/
def cleanDoc (s : String) : String :=
  if s = "" then s
  else
    String.mk (stripSpaces (collapseSpaces
      (s.data.map (fun c => if isDocWs c then ' ' else c))))

/-- The vendor `restrictions` entry of a raw schema: absent, a bare
list, or a dict (whose `"list"` key may itself be absent).  Any other
payload shape behaves like `absent` in the source and is folded into it. -/
inductive RestrVal : Type where
  | absent : RestrVal
  | list (l : List String) : RestrVal
  | dict (l : Option (List String)) : RestrVal

mutual

/-- A raw WAPI object schema as fetched from the appliance: declared
type name, schema version, restrictions, field descriptors. -/
inductive RawSchema : Type where
  | mk : Option String → Option String → RestrVal → List RawField → RawSchema

/-- A raw WAPI field descriptor: name (empty string models an absent
name), supports string, declared type list, array flag, doc text,
searchable-by indicator, required flag, enum values, nested schema. -/
inductive RawField : Type where
  | mk : String → String → List String → Bool → String → String → Bool →
      Option (List String) → Option RawSchema → RawField

end

def RawSchema.typeName : RawSchema → Option String
  | .mk t _ _ _ => t

def RawSchema.schemaVersion : RawSchema → Option String
  | .mk _ v _ _ => v

def RawSchema.restrictions : RawSchema → RestrVal
  | .mk _ _ r _ => r

def RawSchema.fields : RawSchema → List RawField
  | .mk _ _ _ fs => fs

def RawField.name : RawField → String
  | .mk n _ _ _ _ _ _ _ _ => n

def RawField.supports : RawField → String
  | .mk _ s _ _ _ _ _ _ _ => s

def RawField.declaredTypes : RawField → List String
  | .mk _ _ t _ _ _ _ _ _ => t

def RawField.is_array : RawField → Bool
  | .mk _ _ _ a _ _ _ _ _ => a

def RawField.doc : RawField → String
  | .mk _ _ _ _ d _ _ _ _ => d

def RawField.searchable_by : RawField → String
  | .mk _ _ _ _ _ sb _ _ _ => sb

def RawField.requiredFlag : RawField → Bool
  | .mk _ _ _ _ _ _ r _ _ => r

def RawField.enum_values : RawField → Option (List String)
  | .mk _ _ _ _ _ _ _ e _ => e

def RawField.nestedSchema : RawField → Option RawSchema
  | .mk _ _ _ _ _ _ _ _ ns => ns

/-- The normalized field record built by `process_field` (the keys of
the Python dict it returns).  `nested_schema_name` is absent here and
only set later by `process_schema`. -/
structure ProcessedField where
  name : String
  type_ : String
  original_type : String
  description : String
  readonly : Bool
  writeonly : Bool
  deleteonly : Bool
  supports_filtering : Bool
  searchable_by : String
  required : Bool
  is_array : Bool
  enum : Option (List String)
  supports : String
  nested_schema : Option RawSchema
  nested_schema_name : Option String := none

/-- `process_field` from the source: returns `none` for a field whose
name is empty/absent, otherwise the normalized field record. -/
def process_field (field : RawField) : Option ProcessedField :=
  let field_name := field.name
  if field_name = "" then none
  else
    let supports := field.supports
    let readonly := charIn 'r' supports && !(charIn 'w' supports)
    let writeonly := charIn 'w' supports && !(charIn 'r' supports)
    let deleteonly := charIn 'd' supports && !(charIn 'r' supports) &&
      !(charIn 'w' supports)
    let field_types := if field.declaredTypes = [] then ["string"] else field.declaredTypes
    let field_type := field_types.headD "string"
    let is_array := field.is_array
    let original_type := field_type
    let field_type := if is_array then "array" else field_type
    let description := cleanDoc field.doc
    let searchable_by := field.searchable_by
    let supports_filtering := searchable_by ≠ ""
    let required := field.requiredFlag
    let enum_values := field.enum_values
    let nested_schema := field.nestedSchema
    some {
      name := field_name
      type_ := field_type
      original_type := original_type
      description := description
      readonly := readonly
      writeonly := writeonly
      deleteonly := deleteonly
      supports_filtering := supports_filtering
      searchable_by := searchable_by
      required := required
      is_array := is_array
      enum := enum_values
      supports := supports
      nested_schema := nested_schema
    }

/-- A nested-schema reference recorded by `process_schema` (generated
child schema name, raw nested schema, owning field name). -/
structure NestedEntry where
  name : String
  schema : RawSchema
  field_name : String

/-- The normalized schema record built by `process_schema`. -/
structure ProcessedSchema where
  object_type : String
  object_name : String
  schema_name : String
  response_schema_name : String
  fields : List (String × ProcessedField)
  filtering_fields : List String
  required_fields : List String
  nested_schemas : List NestedEntry
  supports_create : Bool
  supports_delete : Bool
  supports_modify : Bool
  group : String
  schema_version : String
  restrictions : List String

/-- The generator configuration the transformation core reads: the
`--objects` request list, the object-type → group table, the
pascal-case and example toggles, and the function-callback field map. -/
structure Config where
  objects : List String
  object_to_group : List (String × String)
  pascal_case_schemas : Bool
  include_examples : Bool
  func_call_fields : List (String × List String)

/-- Look up a key in an association list of strings. -/
def lookupStr (kvs : List (String × String)) (k : String) : Option String :=
  match kvs with
  | [] => none
  | (k', v) :: rest => if k' = k then some v else lookupStr rest k

/-- Look up a key in an association list of string lists. -/
def lookupStrList (kvs : List (String × List String)) (k : String) : Option (List String) :=
  match kvs with
  | [] => none
  | (k', v) :: rest => if k' = k then some v else lookupStrList rest k

/-- Replace the value bound to a field name, else append, as Python dict
assignment does on the `processed_fields` dict. -/
def setField (kvs : List (String × ProcessedField)) (k : String) (v : ProcessedField) :
    List (String × ProcessedField) :=
  match kvs with
  | [] => [(k, v)]
  | (k', v') :: rest => if k' = k then (k', v) :: rest else (k', v') :: setField rest k v

/-- The restriction normalization in `process_schema`: a bare list is
taken as-is, a dict contributes its `"list"` entry, anything else gives
the empty list. -/
def extractRestrictions : RestrVal → List String
  | .absent => []
  | .list l => l
  | .dict (some l) => l
  | .dict none => []

/-- State accumulated by the field loop of `process_schema`. -/
structure FieldLoopState where
  fields : List (String × ProcessedField)
  filtering_fields : List String
  required_fields : List String
  nested_schemas : List NestedEntry

/-- The field loop of `process_schema`.  The source's guard that skips
an unprocessed field is commented out, so `processed_field["name"]` is
evaluated on `None` when a field has no name: that raised `TypeError`
is modelled by `Except.error ()`. -/
def processSchemaFields (type_name : String) :
    List RawField → FieldLoopState → Except Unit FieldLoopState
  | [], st => .ok st
  | field :: rest, st =>
    match process_field field with
    | none => .error ()
    | some pf =>
      let field_name := pf.name
      let filtering :=
        if pf.supports_filtering then st.filtering_fields ++ [field_name]
        else st.filtering_fields
      let required :=
        if pf.required then st.required_fields ++ [field_name] else st.required_fields
      match pf.nested_schema with
      | some ns =>
        let nested_schema_name := to_pascal_case (type_name ++ "_" ++ field_name)
        let pf := { pf with nested_schema_name := some nested_schema_name }
        processSchemaFields type_name rest {
          fields := setField st.fields field_name pf
          filtering_fields := filtering
          required_fields := required
          nested_schemas := st.nested_schemas ++
            [{ name := nested_schema_name, schema := ns, field_name := field_name }] }
      | none =>
        processSchemaFields type_name rest {
          fields := setField st.fields field_name pf
          filtering_fields := filtering
          required_fields := required
          nested_schemas := st.nested_schemas }

/-- `process_schema` from the source.  An absent raw schema gives
`ok none` (the caller's failure signal); a field with no name makes the
source raise, modelled by `error ()`. -/
def process_schema (gen : Config) (schema : Option RawSchema) (object_type : String) :
    Except Unit (Option ProcessedSchema) :=
  match schema with
  | none => .ok none
  | some schema =>
    let type_name := schema.typeName.getD object_type
    let restrictions := extractRestrictions schema.restrictions
    match processSchemaFields type_name schema.fields ⟨[], [], [], []⟩ with
    | .error e => .error e
    | .ok st =>
      let group :=
        if gen.objects.length = 1 then "custom"
        else (lookupStr gen.object_to_group object_type).getD "other"
      let schema_name :=
        if gen.pascal_case_schemas then to_pascal_case type_name
        else colonToUnderscore type_name
      let response_schema_name := "List" ++ schema_name ++ "Response"
      let supports_create := !(memStr restrictions "create")
      let supports_delete := !(memStr restrictions "delete")
      let supports_modify := st.fields.any (fun kv => charIn 'w' kv.2.supports)
      .ok (some {
        object_type := type_name
        object_name := strLower (colonToUnderscore type_name)
        schema_name := schema_name
        response_schema_name := response_schema_name
        fields := st.fields
        filtering_fields := st.filtering_fields
        required_fields := st.required_fields
        nested_schemas := st.nested_schemas
        supports_create := supports_create
        supports_delete := supports_delete
        supports_modify := supports_modify
        group := group
        schema_version := schema.schemaVersion.getD "2"
        restrictions := restrictions })

/-- The argument shape `convert_field_type_to_openapi` reads: the field
dicts built by `process_field` as well as the synthetic array-item
dicts built at its call sites. -/
structure ConvInput where
  type_ : String
  original_type : String
  description : String
  readonly : Bool
  writeonly : Bool
  enum : Option (List String) := none
  parent_property : Option String := none

/-- View a processed field as input to the type converter. -/
def ProcessedField.toConv (pf : ProcessedField) : ConvInput :=
  { type_ := pf.type_
    original_type := pf.original_type
    description := pf.description
    readonly := pf.readonly
    writeonly := pf.writeonly
    enum := pf.enum
    parent_property := none }

/-- The fixed vendor-kind → OpenAPI-type table. -/
def typeMapping : String → Option String
  | "string" => some "string"
  | "uint" => some "integer"
  | "int" => some "integer"
  | "integer" => some "integer"
  | "bool" => some "boolean"
  | "timestamp" => some "integer"
  | "enum" => some "string"
  | "extattr" => some "object"
  | _ => none

/-- The 64-bit format hints for numeric kinds. -/
def formatMapping : String → Option String
  | "timestamp" => some "int64"
  | "uint" => some "int64"
  | "int" => some "int64"
  | _ => none

/-- `convert_field_type_to_openapi` from the source. -/
def convert_field_type_to_openapi (f : ConvInput) : JObj :=
  let p : JObj := [("type", .str "string"), ("description", .str f.description)]
  let p :=
    match typeMapping f.type_ with
    | some t => setKey p "type" (.str t)
    | none =>
      if f.parent_property = some "is_array" then p
      else setKey p "type" (.str "object")
  let p :=
    match formatMapping f.type_ with
    | some fmt => setKey p "format" (.str fmt)
    | none => p
  let p :=
    if (typeMapping f.type_).isNone && f.original_type ≠ "" then
      setKey p "enum" (.arr [.str f.original_type])
    else p
  let p :=
    match f.enum with
    | some l => if l = [] then p else setKey p "enum" (.arr (l.map .str))
    | none => p
  let p := if f.readonly then setKey p "readOnly" (.bool true) else p
  let p := if f.writeonly then setKey p "writeOnly" (.bool true) else p
  p

/-- The example annotation both emitters add when `include_examples` is
set, keyed on the property's current `type`. -/
def addExample (field_name : String) (p : JObj) : JObj :=
  match getKey p "type" with
  | some (.str "string") => setKey p "example" (.str ("Example " ++ field_name))
  | some (.str "integer") => setKey p "example" (.num 1)
  | some (.str "boolean") => setKey p "example" (.bool false)
  | _ => p

/-- `schemas_data[schema_name]["properties"][field_name] = v`:
a live path update into the schemas map, as the source performs it. -/
def setProp (sd : JObj) (name fn : String) (v : JVal) : JObj :=
  match getKey sd name with
  | some (.obj entry) =>
    match getKey entry "properties" with
    | some (.obj props) =>
      setKey sd name (.obj (setKey entry "properties" (.obj (setKey props fn v))))
    | _ => sd
  | _ => sd

/-- On empty-name fields `process_field` keeps the raw nested schema
and the raw name; used to justify termination of the nested expansion. -/
theorem process_field_nestedSchema (field : RawField) (pf : ProcessedField)
    (h : process_field field = some pf) : pf.nested_schema = field.nestedSchema := by
  simp only [process_field] at h
  split_ifs at h <;> simp only [Option.some.injEq] at h <;> subst h <;> rfl

/-- A nested schema is structurally smaller than its owning raw field. -/
theorem sizeOf_nestedSchema (f : RawField) (ns : RawSchema)
    (h : f.nestedSchema = some ns) : sizeOf ns < sizeOf f := by
  cases f with
  | mk n s t a d sb r e nso =>
    simp only [RawField.nestedSchema] at h
    subst h
    simp
    omega

/-- The array-items object for a plain (non-nested) array field, built
from a synthetic item descriptor carrying the original vendor type. -/
def arrayItemsObj (parentProp : Option String) (original_type : String) : JObj :=
  let item_type := convert_field_type_to_openapi
    { type_ := original_type, original_type := original_type,
      description := "", readonly := false, writeonly := false,
      parent_property := parentProp }
  let items : JObj := [("type", (getKey item_type "type").getD (.str "string"))]
  match getKey item_type "enum" with
  | some e => setKey items "enum" e
  | none => items

/-- The converted-and-possibly-exampled property the nested field loop
starts from. -/
def pnsfBase (gen : Config) (pf : ProcessedField) : JObj :=
  let property_def := convert_field_type_to_openapi pf.toConv
  if gen.include_examples then addExample pf.name property_def else property_def

/-- The per-field property construction of the nested-schema field loop
(before the `$ref`/`type` cleanup).  `fns` is the field's nested raw
schema, which `process_field` copies verbatim into the processed field
(`process_field_nestedSchema`). -/
def pnsfFieldProp (gen : Config) (schema_name : String) (pf : ProcessedField)
    (fns : Option RawSchema) : JObj :=
  let field_name := pf.name
  let property_def := pnsfBase gen pf
  match fns with
  | some _ =>
    let nested_schema_name := to_pascal_case (schema_name ++ "_" ++ field_name)
    if pf.is_array then
      [("type", .str "array"),
       ("description", .str pf.description),
       ("items", .obj [("$ref",
         .str ("#/components/schemas/" ++ nested_schema_name))])]
    else
      setKey property_def "$ref"
        (.str ("#/components/schemas/" ++ nested_schema_name))
  | none =>
    if pf.is_array && pf.nested_schema_name.isSome then
      setKey (setKey property_def "type" (.str "array")) "items"
        (.obj [("$ref",
          .str ("#/components/schemas/" ++ pf.nested_schema_name.getD ""))])
    else if pf.is_array then
      setKey (setKey property_def "type" (.str "array")) "items"
        (.obj (arrayItemsObj none pf.original_type))
    else property_def

/-- The `$ref`/`type` cleanup at the end of each nested-loop iteration. -/
def refCleanup (pd : JObj) : JObj :=
  if hasKeyB pd "$ref" then delKey pd "type" else pd

mutual

/-- `process_nested_schema_fields` from the source, with the generator's
`created_schemas` set threaded explicitly. -/
def process_nested_schema_fields (gen : Config) (entry : NestedEntry)
    (created : List String) (schemas_data : JObj) : List String × JObj :=
  let schema_name := entry.name
  if memStr created schema_name then (created, schemas_data)
  else
    let created := schema_name :: created
    let schemas_data := setKey schemas_data schema_name
      (.obj [("type", .str "object"), ("properties", .obj [])])
    match hs : entry.schema with
    | .mk _ _ _ fs => pnsfLoop gen schema_name fs created schemas_data
termination_by sizeOf entry.schema
decreasing_by
  rw [hs]
  simp <;> omega

/-- The field loop of `process_nested_schema_fields`: skip unnamed
fields, build the property, recursively expand a nested schema, then
assign the cleaned property into the live schemas map. -/
def pnsfLoop (gen : Config) (schema_name : String) :
    List RawField → List String → JObj → List String × JObj
  | [], created, sd => (created, sd)
  | .mk fname fsup ftys farr fdoc fsby freq fenv fns :: rest, created, sd =>
    match process_field (.mk fname fsup ftys farr fdoc fsby freq fenv fns) with
    | none => pnsfLoop gen schema_name rest created sd
    | some pf =>
      let cs :=
        match fns with
        | some ns =>
          process_nested_schema_fields gen
            ⟨to_pascal_case (schema_name ++ "_" ++ pf.name), ns, pf.name⟩ created sd
        | none => (created, sd)
      let pd := refCleanup (pnsfFieldProp gen schema_name pf fns)
      pnsfLoop gen schema_name rest cs.1
        (setProp cs.2 schema_name pf.name (.obj pd))
termination_by fs _ _ => sizeOf fs
decreasing_by
  all_goals try simp only [NestedEntry.schema]
  all_goals simp <;> omega

end

/-- `generate_extensible_attributes_schema` from the source. -/
def generate_extensible_attributes_schema : JVal :=
  .obj [("type", .str "object"),
        ("properties", .obj [("value",
          .obj [("description", .str "The value of the extensible attribute.")])]),
        ("required", .arr [.str "value"]),
        ("description", .str "Extensible attributes associated with the object.")]

/-- The built-in `_ref` property every primary object schema starts with. -/
def refProperty : JVal :=
  .obj [("type", .str "string"), ("description", .str "The reference to the object.")]

/-- The two-branch function-callback union the emitter substitutes for a
registered callback field (`oneOf` of a plain string and a call object;
the `_object_ref` property is added only for the field named `network`). -/
def funcCallOneOf (object_type field_name descr : String) : JVal :=
  let callProps : JObj :=
    [("_object_function", .obj [("type", .str "string")]),
     ("_parameters", .obj [("type", .str "object")]),
     ("_result_field", .obj [("type", .str "string")]),
     ("_object", .obj [("type", .str "string")]),
     ("_object_parameters", .obj [("type", .str "object")])]
  let callProps :=
    if field_name = "network" then
      callProps ++ [("_object_ref",
        .obj [("type", .str "string"),
              ("description", .str ("A WAPI object reference on which the function calls. " ++
                "Either _object or _object_ref must be set."))])]
    else callProps
  .arr [.obj [("type", .str "string"),
              ("description", .str (object_type ++ ": " ++ descr))],
        .obj [("type", .str "object"),
              ("description", .str (object_type ++ ": " ++ descr)),
              ("properties", .obj callProps)]]

/-- The extattrs / function-callback special-casing of the emitter's
per-field property (the first if/elif chain after the `_ref` skip). -/
def bpSpecial (gen : Config) (object_type field_name : String)
    (fd : ProcessedField) : JObj :=
  let property_def := convert_field_type_to_openapi fd.toConv
  let special := (lookupStrList gen.func_call_fields object_type).getD []
  if field_name = "extattrs" then
    setKey property_def "additionalProperties"
      (.obj [("$ref", .str "#/components/schemas/ExtAttrs")])
  else if memStr special field_name then
    setKey (delKey property_def "type") "oneOf"
      (funcCallOneOf object_type field_name fd.description)
  else property_def

/-- The nested-schema / array structural overrides of the emitter's
per-field property. -/
def bpNested (gen : Config) (object_type field_name : String)
    (fd : ProcessedField) : JObj :=
  let property_def := bpSpecial gen object_type field_name fd
  match fd.nested_schema_name with
  | some nsn =>
    if fd.is_array then
      setKey (setKey property_def "type" (.str "array")) "items"
        (.obj [("$ref", .str ("#/components/schemas/" ++ nsn))])
    else
      [("$ref", .str ("#/components/schemas/" ++ nsn))]
  | none =>
    if fd.is_array then
      setKey (setKey property_def "type" (.str "array")) "items"
        (.obj (arrayItemsObj (some "is_array") fd.original_type))
    else property_def

/-- The per-field property construction of `generate_schemas_for_objects`
(everything between the type conversion and the property assignment). -/
def buildProperty (gen : Config) (object_type field_name : String)
    (fd : ProcessedField) : JObj :=
  let property_def := bpNested gen object_type field_name fd
  if gen.include_examples then addExample field_name property_def else property_def

/-- The `properties` map of the primary object schema: the built-in
`_ref` property, then one property per processed field, with a raw
field named `_ref` skipped. -/
def mainSchemaProps (gen : Config) (s : ProcessedSchema) : JObj :=
  s.fields.foldl
    (fun props kv =>
      if kv.1 = "_ref" then props
      else setKey props kv.1 (.obj (buildProperty gen s.object_type kv.1 kv.2)))
    [("_ref", refProperty)]

/-- The primary object schema entry for one processed schema. -/
def mainSchemaEntry (gen : Config) (s : ProcessedSchema) : JVal :=
  let base : JObj :=
    [("type", .str "object"),
     ("additionalProperties", .bool false),
     ("properties", .obj (mainSchemaProps gen s))]
  if s.required_fields = [] then .obj base
  else .obj (base ++ [("required", .arr (s.required_fields.map .str))])

/-- The list-response variant (bare array, or object with a `result`
array). -/
def listResponseVal (schema_name response_schema_name : String) : JVal :=
  .obj [("oneOf", .arr [
    .obj [("description",
            .str ("The response format to retrieve __" ++ schema_name ++ "__ objects.")),
          ("type", .str "array"),
          ("title", .str (response_schema_name ++ "Array")),
          ("items", .obj [("$ref", .str ("#/components/schemas/" ++ schema_name))])],
    .obj [("description",
            .str ("The response format to retrieve __" ++ schema_name ++ "__ objects.")),
          ("type", .str "object"),
          ("title", .str (response_schema_name ++ "Object")),
          ("properties", .obj [("result",
            .obj [("type", .str "array"),
                  ("items", .obj [("$ref",
                    .str ("#/components/schemas/" ++ schema_name))])])])]])]

/-- The create-response variant (object with a `result`, or bare string). -/
def createResponseVal (schema_name : String) : JVal :=
  .obj [("oneOf", .arr [
    .obj [("description",
            .str ("The response format to create __" ++ schema_name ++ "__ in object format.")),
          ("type", .str "object"),
          ("title", .str ("Create" ++ schema_name ++ "ResponseAsObject")),
          ("properties", .obj [("result",
            .obj [("$ref", .str ("#/components/schemas/" ++ schema_name))])])],
    .obj [("description", .str ("The response format to create __" ++ schema_name ++ "__.")),
          ("type", .str "string"),
          ("title", .str ("Create" ++ schema_name ++ "Response"))]])]

/-- The get-response variant (bare object, or object with a `result`). -/
def getResponseVal (schema_name : String) : JVal :=
  .obj [("oneOf", .arr [
    .obj [("$ref", .str ("#/components/schemas/" ++ schema_name))],
    .obj [("description",
            .str ("The response format to retrieve __" ++ schema_name ++ "__ objects.")),
          ("type", .str "object"),
          ("additionalProperties", .bool false),
          ("title", .str ("Get" ++ schema_name ++ "ResponseObjectAsResult")),
          ("properties", .obj [("result",
            .obj [("$ref", .str ("#/components/schemas/" ++ schema_name))])])]])]

/-- The update-response variant (object with a `result`, or bare string). -/
def updateResponseVal (schema_name : String) : JVal :=
  .obj [("oneOf", .arr [
    .obj [("description",
            .str ("The response format to update __" ++ schema_name ++ "__ in object format.")),
          ("type", .str "object"),
          ("title", .str ("Update" ++ schema_name ++ "ResponseAsObject")),
          ("properties", .obj [("result",
            .obj [("$ref", .str ("#/components/schemas/" ++ schema_name))])])],
    .obj [("description", .str ("The response format to update __" ++ schema_name ++ "__ .")),
          ("type", .str "string"),
          ("title", .str ("Update" ++ schema_name ++ "Response"))]])]

/-- One iteration of the main loop of `generate_schemas_for_objects`:
primary schema, nested expansion, then the four response variants
(the create one gated on `supports_create`; the update one unguarded). -/
def genSchemasStep (gen : Config) (acc : List String × JObj) (s : ProcessedSchema) :
    List String × JObj :=
  let schema_name := s.schema_name
  let sd := setKey acc.2 schema_name (mainSchemaEntry gen s)
  let cs := s.nested_schemas.foldl
    (fun (cs : List String × JObj) ne =>
      process_nested_schema_fields gen ne cs.1 cs.2)
    (acc.1, sd)
  let sd := setKey cs.2 s.response_schema_name
    (listResponseVal schema_name s.response_schema_name)
  let sd :=
    if s.supports_create then
      setKey sd ("Create" ++ schema_name ++ "Response") (createResponseVal schema_name)
    else sd
  let sd := setKey sd ("Get" ++ schema_name ++ "Response") (getResponseVal schema_name)
  let sd := setKey sd ("Update" ++ schema_name ++ "Response") (updateResponseVal schema_name)
  (cs.1, sd)

/-- `generate_schemas_for_objects` from the source: reset the
de-duplication set, emit the shared `ExtAttrs` schema, then process each
schema in input order. -/
def generate_schemas_for_objects (gen : Config) (schemas : List ProcessedSchema) : JObj :=
  (schemas.foldl (genSchemasStep gen)
    ([], [("ExtAttrs", generate_extensible_attributes_schema)])).2

/-- A `$ref` into `components.parameters`. -/
def paramRef (s : String) : JVal :=
  .obj [("$ref", .str ("#/components/parameters/" ++ s))]

/-- The fixed common query parameters of the collection GET. -/
def commonListParams : List JVal :=
  [paramRef "ReturnFields", paramRef "ReturnFieldsPlus", paramRef "MaxResults",
   paramRef "ReturnAsObject", paramRef "Paging", paramRef "PageId",
   paramRef "ProxySearch", paramRef "Schema", paramRef "SchemaVersion",
   paramRef "GetDoc", paramRef "SchemaSearchable", paramRef "Inheritance"]

/-- A bare response object holding only a description. -/
def descOnly (d : String) : JVal :=
  .obj [("description", .str d)]

/-- A 200 response with a JSON schema reference. -/
def refResponse (d ref : String) : JVal :=
  .obj [("description", .str d),
        ("content", .obj [("application/json",
          .obj [("schema", .obj [("$ref", .str ref)])])])]

/-- Association-list lookup on the processed-fields dict. -/
def lookupField (kvs : List (String × ProcessedField)) (k : String) : Option ProcessedField :=
  match kvs with
  | [] => none
  | (k', v) :: rest => if k' = k then some v else lookupField rest k

/-- One filterable-field query parameter on the collection GET. -/
def filteringParam (s : ProcessedSchema) (field_name : String) : JVal :=
  match lookupField s.fields field_name with
  | some fd =>
    let property_def := convert_field_type_to_openapi fd.toConv
    let param_type := (getKey property_def "type").getD (.str "string")
    .obj [("name", .str field_name), ("in", .str "query"),
          ("description", .str fd.description),
          ("required", .bool false),
          ("schema", .obj [("type", param_type)])]
  | none =>
    .obj [("name", .str field_name), ("in", .str "query"),
          ("description", .str ("Filter by " ++ field_name)),
          ("required", .bool false),
          ("schema", .obj [("type", .str "string")])]

/-- The collection GET operation. -/
def collectionGetOp (s : ProcessedSchema) : JVal :=
  .obj [("tags", .arr [.str (to_pascal_case s.object_type)]),
        ("operationId", .str (to_pascal_case s.object_type ++ "List")),
        ("summary", .str ("Retrieve " ++ s.object_type ++ " objects")),
        ("description", .str ("Returns a list of " ++ s.object_type ++
          " objects matching the search criteria")),
        ("parameters", .arr (commonListParams ++
          s.filtering_fields.map (filteringParam s))),
        ("responses", .obj [
          ("200", refResponse "Successful operation"
            ("#/components/schemas/" ++ s.response_schema_name)),
          ("400", descOnly "Bad request"),
          ("401", descOnly "Unauthorized"),
          ("403", descOnly "Forbidden"),
          ("404", descOnly "Not found")]),
        ("security", .arr [.obj [("basicAuth", .arr [])]])]

/-- The collection POST (create) operation. -/
def createPostOp (s : ProcessedSchema) : JVal :=
  .obj [("tags", .arr [.str (to_pascal_case s.object_type)]),
        ("operationId", .str (to_pascal_case s.object_type ++ "Create")),
        ("summary", .str ("Create a " ++ s.object_type ++ " object")),
        ("description", .str ("Creates a new " ++ s.object_type ++ " object")),
        ("parameters", .arr [paramRef "ReturnFields", paramRef "ReturnFieldsPlus",
          paramRef "ReturnAsObject", paramRef "Inheritance"]),
        ("requestBody", .obj [("description", .str "Object data to create"),
          ("required", .bool true),
          ("content", .obj [("application/json",
            .obj [("schema", .obj [("$ref",
              .str ("#/components/schemas/" ++ s.schema_name))])])])]),
        ("responses", .obj [
          ("201", refResponse "Object created successfully"
            ("#/components/schemas/Create" ++ s.schema_name ++ "Response")),
          ("400", descOnly "Bad request"),
          ("401", descOnly "Unauthorized"),
          ("403", descOnly "Forbidden")]),
        ("security", .arr [.obj [("basicAuth", .arr [])]])]

/-- The required string `reference` path parameter of the item path. -/
def referenceParam (object_type : String) : JVal :=
  .obj [("name", .str "reference"), ("in", .str "path"),
        ("description", .str ("Reference of the " ++ object_type ++ " object")),
        ("required", .bool true),
        ("schema", .obj [("type", .str "string")])]

/-- The item GET operation. -/
def itemGetOp (s : ProcessedSchema) : JVal :=
  .obj [("tags", .arr [.str (to_pascal_case s.object_type)]),
        ("operationId", .str (to_pascal_case s.object_type ++ "Read")),
        ("summary", .str ("Get a specific " ++ s.object_type ++ " object")),
        ("description", .str ("Returns a specific " ++ s.object_type ++
          " object by reference")),
        ("parameters", .arr ([referenceParam s.object_type] ++
          [paramRef "ReturnFields", paramRef "ReturnFieldsPlus",
           paramRef "ReturnAsObject", paramRef "Inheritance"])),
        ("responses", .obj [
          ("200", refResponse "Successful operation"
            ("#/components/schemas/Get" ++ s.schema_name ++ "Response")),
          ("400", descOnly "Bad request"),
          ("401", descOnly "Unauthorized"),
          ("403", descOnly "Forbidden"),
          ("404", descOnly "Not found")]),
        ("security", .arr [.obj [("basicAuth", .arr [])]])]

/-- The item PUT (update) operation. -/
def itemPutOp (s : ProcessedSchema) : JVal :=
  .obj [("tags", .arr [.str (to_pascal_case s.object_type)]),
        ("operationId", .str (to_pascal_case s.object_type ++ "Update")),
        ("summary", .str ("Update a " ++ s.object_type ++ " object")),
        ("description", .str ("Updates a specific " ++ s.object_type ++
          " object by reference")),
        ("parameters", .arr ([referenceParam s.object_type] ++
          [paramRef "ReturnFields", paramRef "ReturnFieldsPlus",
           paramRef "ReturnAsObject"])),
        ("requestBody", .obj [("description", .str "Object data to update"),
          ("required", .bool true),
          ("content", .obj [("application/json",
            .obj [("schema", .obj [("$ref",
              .str ("#/components/schemas/" ++ s.schema_name))])])])]),
        ("responses", .obj [
          ("200", refResponse "Object updated successfully"
            ("#/components/schemas/Update" ++ s.schema_name ++ "Response")),
          ("400", descOnly "Bad request"),
          ("401", descOnly "Unauthorized"),
          ("403", descOnly "Forbidden"),
          ("404", descOnly "Not found")]),
        ("security", .arr [.obj [("basicAuth", .arr [])]])]

/-- One optional query parameter on DELETE for a delete-only field. -/
def deleteQueryParam (field_name : String) (fd : ProcessedField) : JVal :=
  .obj [("name", .str field_name), ("in", .str "query"),
        ("description", .str fd.description),
        ("required", .bool false),
        ("schema", .obj [("type",
          (getKey (convert_field_type_to_openapi fd.toConv) "type").getD (.str "string"))])]

/-- The parameter list of the item DELETE operation: the `reference`
path parameter plus one optional query parameter per delete-only field. -/
def deleteParams (s : ProcessedSchema) : List JVal :=
  referenceParam s.object_type ::
    s.fields.filterMap
      (fun kv => if kv.2.deleteonly then some (deleteQueryParam kv.1 kv.2) else none)

/-- The item DELETE operation. -/
def itemDeleteOp (s : ProcessedSchema) : JVal :=
  .obj [("tags", .arr [.str (to_pascal_case s.object_type)]),
        ("operationId", .str (to_pascal_case s.object_type ++ "Delete")),
        ("summary", .str ("Delete a " ++ s.object_type ++ " object")),
        ("description", .str ("Deletes a specific " ++ s.object_type ++
          " object by reference")),
        ("parameters", .arr (deleteParams s)),
        ("responses", .obj [
          ("200", descOnly "Object deleted successfully"),
          ("400", descOnly "Bad request"),
          ("401", descOnly "Unauthorized"),
          ("403", descOnly "Forbidden"),
          ("404", descOnly "Not found")]),
        ("security", .arr [.obj [("basicAuth", .arr [])]])]

/-- The collection path item: GET always, POST iff `supports_create`. -/
def collectionPathItem (s : ProcessedSchema) : JObj :=
  let pi : JObj := [("get", collectionGetOp s)]
  if s.supports_create then setKey pi "post" (createPostOp s) else pi

/-- The item path item: GET always, PUT iff `supports_modify`,
DELETE iff `supports_delete`. -/
def itemPathItem (s : ProcessedSchema) : JObj :=
  let pi : JObj := [("get", itemGetOp s)]
  let pi := if s.supports_modify then setKey pi "put" (itemPutOp s) else pi
  if s.supports_delete then setKey pi "delete" (itemDeleteOp s) else pi

/-- The `paths` section built by `generate_group_api`: per schema the
collection path `/{object_type}` and the item path
`/{object_type}/{reference}`. -/
def generate_group_api_paths (schemas : List ProcessedSchema) : JObj :=
  schemas.foldl
    (fun paths s =>
      setKey (setKey paths ("/" ++ s.object_type) (.obj (collectionPathItem s)))
        ("/" ++ s.object_type ++ "/{reference}") (.obj (itemPathItem s)))
    []

theorem getKey_setKey (kvs : JObj) (k k' : String) (v : JVal) :
    getKey (setKey kvs k' v) k = if k' = k then some v else getKey kvs k := by
  induction kvs with
  | nil =>
    by_cases h : k' = k <;> simp [setKey, getKey, h]
  | cons kv rest ih =>
    obtain ⟨k0, v0⟩ := kv
    by_cases h0 : k0 = k'
    · subst h0
      by_cases h : k0 = k <;> simp [setKey, getKey, h]
    · by_cases h : k0 = k
      · subst h
        have hne : k' ≠ k0 := fun hk => h0 hk.symm
        simp [setKey, getKey, h0, hne]
      · simp [setKey, getKey, h0, h, ih]

theorem getKey_setKey_self (kvs : JObj) (k : String) (v : JVal) :
    getKey (setKey kvs k v) k = some v := by
  simp [getKey_setKey]

theorem getKey_setKey_ne (kvs : JObj) (k k' : String) (v : JVal) (h : k' ≠ k) :
    getKey (setKey kvs k' v) k = getKey kvs k := by
  simp [getKey_setKey, h]

theorem hasKeyB_setKey (kvs : JObj) (k k' : String) (v : JVal) :
    hasKeyB (setKey kvs k' v) k = ((k' = k : Bool) || hasKeyB kvs k) := by
  by_cases h : k' = k <;> simp [hasKeyB, getKey_setKey, h]

theorem getKey_delKey (kvs : JObj) (k k' : String) (h : k' ≠ k) :
    getKey (delKey kvs k') k = getKey kvs k := by
  induction kvs with
  | nil => rfl
  | cons kv rest ih =>
    obtain ⟨k0, v0⟩ := kv
    by_cases h0 : k0 = k'
    · subst h0
      have hk : k0 ≠ k := fun hk => h (hk ▸ rfl)
      simp [delKey, getKey, hk, ih]
    · by_cases hk : k0 = k
      · subst hk
        simp [delKey, getKey, h0, ih]
      · simp [delKey, getKey, h0, hk, ih]

theorem getKey_delKey_self (kvs : JObj) (k : String) :
    getKey (delKey kvs k) k = none := by
  induction kvs with
  | nil => rfl
  | cons kv rest ih =>
    obtain ⟨k0, v0⟩ := kv
    by_cases h0 : k0 = k <;> simp [delKey, getKey, h0, ih]

theorem ctu_idem (s : String) :
    colonToUnderscore (colonToUnderscore s) = colonToUnderscore s := by
  simp only [colonToUnderscore, List.map_map]
  congr 1
  induction s.data with
  | nil => rfl
  | cons c cs ih =>
    simp only [List.map_cons, Function.comp] at *
    rw [ih]
    by_cases h : c = ':' <;> simp [h]

theorem ctu_eq_empty {s : String} (h : colonToUnderscore s = "") : s = "" := by
  cases s with
  | mk d =>
    cases d with
    | nil => rfl
    | cons c cs =>
      have hd := congrArg String.data h
      simp [colonToUnderscore] at hd

/-- C5: `to_pascal_case` substitutes colons with underscores before
splitting on underscores and capitalizing each segment, so
`to_pascal_case "dns_record" = "DnsRecord"` and
`to_pascal_case "a:aaaa" = "AAaaa"` (via `"a_aaaa"`). -/
theorem C5_to_pascal_case :
    to_pascal_case "dns_record" = "DnsRecord" ∧
    to_pascal_case "a:aaaa" = "AAaaa" ∧
    to_pascal_case "a_aaaa" = "AAaaa" ∧
    ∀ s : String, to_pascal_case s = to_pascal_case (colonToUnderscore s) := by
  refine ⟨by decide, by decide, by decide, ?_⟩
  intro s
  by_cases h : s = ""
  · subst h
    decide
  · have h2 : colonToUnderscore s ≠ "" := fun hc => h (ctu_eq_empty hc)
    rw [to_pascal_case, to_pascal_case, if_neg h, if_neg h2, ctu_idem]

theorem convert_getKey_readOnly (g : ConvInput) :
    getKey (convert_field_type_to_openapi g) "readOnly" =
      if g.readonly then some (JVal.bool true) else none := by
  simp only [convert_field_type_to_openapi]
  repeat' split
  all_goals simp_all [getKey_setKey, getKey]

theorem convert_getKey_writeOnly (g : ConvInput) :
    getKey (convert_field_type_to_openapi g) "writeOnly" =
      if g.writeonly then some (JVal.bool true) else none := by
  simp only [convert_field_type_to_openapi]
  repeat' split
  all_goals simp_all [getKey_setKey, getKey]

theorem convert_getKey_type (g : ConvInput) :
    getKey (convert_field_type_to_openapi g) "type" =
      (match typeMapping g.type_ with
       | some t => some (JVal.str t)
       | none =>
         if g.parent_property = some "is_array" then some (JVal.str "string")
         else some (JVal.str "object")) := by
  simp only [convert_field_type_to_openapi]
  repeat' split
  all_goals simp_all [getKey_setKey, getKey]

theorem convert_getKey_enum (g : ConvInput) :
    getKey (convert_field_type_to_openapi g) "enum" =
      (match g.enum with
       | some l =>
         if l = [] then
           (if (typeMapping g.type_).isNone ∧ g.original_type ≠ "" then
             some (JVal.arr [JVal.str g.original_type])
           else none)
         else some (JVal.arr (l.map JVal.str))
       | none =>
         if (typeMapping g.type_).isNone ∧ g.original_type ≠ "" then
           some (JVal.arr [JVal.str g.original_type])
         else none) := by
  simp only [convert_field_type_to_openapi]
  repeat' split
  all_goals simp_all [getKey_setKey, getKey]

theorem convert_getKey_ref (g : ConvInput) :
    getKey (convert_field_type_to_openapi g) "$ref" = none := by
  simp only [convert_field_type_to_openapi]
  repeat' split
  all_goals simp_all [getKey_setKey, getKey]

/-- C3 (amended): `convert_field_type_to_openapi` maps the kind through
the fixed table; a kind outside the table yields type `object` unless
the record is a bare array-item descriptor (then the default `string`
type is left untouched rather than forced to `object`); an unmapped
kind with a non-empty original kind gets a single-element enum of the
original vendor token; and explicit NON-EMPTY `enum_values` override
that enum (an explicitly empty list is falsy in the source and does
not override — see the counterexample). -/
theorem C3_convert_field_type (g : ConvInput) :
    (typeMapping "string" = some "string" ∧ typeMapping "uint" = some "integer" ∧
     typeMapping "int" = some "integer" ∧ typeMapping "integer" = some "integer" ∧
     typeMapping "bool" = some "boolean" ∧ typeMapping "timestamp" = some "integer" ∧
     typeMapping "enum" = some "string" ∧ typeMapping "extattr" = some "object") ∧
    (∀ t, typeMapping g.type_ = some t →
      getKey (convert_field_type_to_openapi g) "type" = some (JVal.str t)) ∧
    (typeMapping g.type_ = none → g.parent_property ≠ some "is_array" →
      getKey (convert_field_type_to_openapi g) "type" = some (JVal.str "object")) ∧
    (typeMapping g.type_ = none → g.parent_property = some "is_array" →
      getKey (convert_field_type_to_openapi g) "type" = some (JVal.str "string")) ∧
    (typeMapping g.type_ = none → g.original_type ≠ "" →
      (g.enum = none ∨ g.enum = some []) →
      getKey (convert_field_type_to_openapi g) "enum" =
        some (JVal.arr [JVal.str g.original_type])) ∧
    (∀ l, g.enum = some l → l ≠ [] →
      getKey (convert_field_type_to_openapi g) "enum" =
        some (JVal.arr (l.map JVal.str))) := by
  refine ⟨by repeat' constructor, ?_, ?_, ?_, ?_, ?_⟩
  · intro t ht
    rw [convert_getKey_type, ht]
  · intro ht hp
    rw [convert_getKey_type, ht]
    simp [hp]
  · intro ht hp
    rw [convert_getKey_type, ht]
    simp [hp]
  · intro ht ho he
    rw [convert_getKey_enum]
    rcases he with he | he <;> simp [he, ht, ho]
  · intro l hl hne
    rw [convert_getKey_enum, hl]
    simp [hne]

/-- The concrete input refuting the literal reading of C3: an unmapped
vendor kind together with an explicitly empty `enum_values` list. -/
def c3CexInput : ConvInput :=
  { type_ := "awsrte53recordinfo", original_type := "awsrte53recordinfo",
    description := "", readonly := false, writeonly := false,
    enum := some [], parent_property := none }

/-- C3 counterexample: with explicit `enum_values = []` the converter
keeps the single-element original-kind enum instead of overriding it,
because the source tests `field_details.get("enum")` for truthiness. -/
theorem C3_cex_empty_enum_not_overriding :
    c3CexInput.enum = some [] ∧
    getKey (convert_field_type_to_openapi c3CexInput) "enum" =
      some (JVal.arr [JVal.str "awsrte53recordinfo"]) ∧
    getKey (convert_field_type_to_openapi c3CexInput) "enum" ≠
      some (JVal.arr (([] : List String).map JVal.str)) := by
  refine ⟨rfl, by rfl, ?_⟩
  intro hcontra
  rw [show getKey (convert_field_type_to_openapi c3CexInput) "enum" =
    some (JVal.arr [JVal.str "awsrte53recordinfo"]) from rfl] at hcontra
  simp at hcontra

/-- Witness for C3 at concrete inputs. -/
theorem C3_witness :
    getKey (convert_field_type_to_openapi
      { type_ := "uint", original_type := "uint", description := "",
        readonly := false, writeonly := false }) "type" = some (JVal.str "integer") ∧
    getKey (convert_field_type_to_openapi
      { type_ := "vendorkind", original_type := "vendorkind", description := "",
        readonly := false, writeonly := false }) "type" = some (JVal.str "object") ∧
    getKey (convert_field_type_to_openapi
      { type_ := "vendorkind", original_type := "vendorkind", description := "",
        readonly := false, writeonly := false,
        parent_property := some "is_array" }) "type" = some (JVal.str "string") ∧
    getKey (convert_field_type_to_openapi
      { type_ := "vendorkind", original_type := "vendorkind", description := "",
        readonly := false, writeonly := false }) "enum" =
      some (JVal.arr [JVal.str "vendorkind"]) ∧
    getKey (convert_field_type_to_openapi
      { type_ := "enum", original_type := "enum", description := "",
        readonly := false, writeonly := false,
        enum := some ["A", "B"] }) "enum" =
      some (JVal.arr [JVal.str "A", JVal.str "B"]) :=
  ⟨(C3_convert_field_type _).2.1 "integer" (by rfl),
   (C3_convert_field_type _).2.2.1 (by rfl) (by simp),
   (C3_convert_field_type _).2.2.2.1 (by rfl) (by rfl),
   (C3_convert_field_type _).2.2.2.2.1 (by rfl) (by simp) (Or.inl rfl),
   (C3_convert_field_type _).2.2.2.2.2 ["A", "B"] rfl (by simp)⟩

/-- C4: `process_field` derives read-only/write-only/delete-only from
the operations string exactly as specified, and the converter emits the
`readOnly`/`writeOnly` flags exactly for read-only/write-only fields,
adding neither flag otherwise. -/
theorem C4_access_flags (f : RawField) (pf : ProcessedField)
    (h : process_field f = some pf) :
    pf.readonly = (charIn 'r' f.supports && !(charIn 'w' f.supports)) ∧
    pf.writeonly = (charIn 'w' f.supports && !(charIn 'r' f.supports)) ∧
    pf.deleteonly = (charIn 'd' f.supports && !(charIn 'r' f.supports) &&
      !(charIn 'w' f.supports)) ∧
    getKey (convert_field_type_to_openapi pf.toConv) "readOnly" =
      (if pf.readonly then some (JVal.bool true) else none) ∧
    getKey (convert_field_type_to_openapi pf.toConv) "writeOnly" =
      (if pf.writeonly then some (JVal.bool true) else none) := by
  refine ⟨?_, ?_, ?_, convert_getKey_readOnly pf.toConv, convert_getKey_writeOnly pf.toConv⟩ <;>
    (simp only [process_field] at h
     split_ifs at h <;> simp only [Option.some.injEq] at h <;> subst h <;> rfl)

/-- Witness for C4 at a concrete read-write field. -/
theorem C4_witness :
    (process_field (RawField.mk "name" "rw" ["string"] false "" "" false none none)).isSome ∧
    getKey (convert_field_type_to_openapi
      { name := "name", type_ := "string", original_type := "string", description := "",
        readonly := false, writeonly := false, deleteonly := false,
        supports_filtering := false, searchable_by := "", required := false,
        is_array := false, enum := none, supports := "rw", nested_schema := none,
        nested_schema_name := none : ProcessedField }.toConv) "readOnly" = none ∧
    getKey (convert_field_type_to_openapi
      { name := "name", type_ := "string", original_type := "string", description := "",
        readonly := false, writeonly := false, deleteonly := false,
        supports_filtering := false, searchable_by := "", required := false,
        is_array := false, enum := none, supports := "rw", nested_schema := none,
        nested_schema_name := none : ProcessedField }.toConv) "writeOnly" = none := by
  have hc := C4_access_flags (RawField.mk "name" "rw" ["string"] false "" "" false none none)
    { name := "name", type_ := "string", original_type := "string", description := "",
      readonly := false, writeonly := false, deleteonly := false,
      supports_filtering := false, searchable_by := "", required := false,
      is_array := false, enum := none, supports := "rw", nested_schema := none,
      nested_schema_name := none } (by rfl)
  refine ⟨by rfl, ?_, ?_⟩
  · rw [hc.2.2.2.1]
    rfl
  · rw [hc.2.2.2.2]
    rfl

/-- A fixed configuration used by the concrete witnesses. -/
def cfg0 : Config :=
  { objects := [], object_to_group := [], pascal_case_schemas := true,
    include_examples := true, func_call_fields := [] }

/-- C8: `process_schema` normalizes the vendor restriction data to a
flat list whether it arrives as a bare list or as an object with a
`list` key (absent meaning empty), and sets `supports_create` /
`supports_delete` to true iff `"create"` / `"delete"` is not in that
list. -/
theorem C8_restrictions (gen : Config) (sch : RawSchema) (object_type : String)
    (ps : ProcessedSchema)
    (h : process_schema gen (some sch) object_type = .ok (some ps)) :
    ps.restrictions = extractRestrictions sch.restrictions ∧
    (∀ l, sch.restrictions = .list l → ps.restrictions = l) ∧
    (∀ l, sch.restrictions = .dict (some l) → ps.restrictions = l) ∧
    (sch.restrictions = .dict none → ps.restrictions = []) ∧
    (sch.restrictions = .absent → ps.restrictions = []) ∧
    ps.supports_create = !(memStr ps.restrictions "create") ∧
    ps.supports_delete = !(memStr ps.restrictions "delete") := by
  simp only [process_schema] at h
  cases hst : processSchemaFields (sch.typeName.getD object_type) sch.fields ⟨[], [], [], []⟩ with
  | error e => rw [hst] at h; cases h
  | ok st =>
    rw [hst] at h
    simp only [Except.ok.injEq, Option.some.injEq] at h
    subst h
    refine ⟨rfl, ?_, ?_, ?_, ?_, rfl, rfl⟩
    · intro l hl
      rw [hl]
      rfl
    · intro l hl
      rw [hl]
      rfl
    · intro hl
      rw [hl]
      rfl
    · intro hl
      rw [hl]
      rfl

/-- Raw schema and expected record for the C8 witness. -/
def c8sch : RawSchema := .mk (some "foo") none (.list ["create"]) []

def c8ps : ProcessedSchema :=
  { object_type := "foo", object_name := "foo", schema_name := "Foo",
    response_schema_name := "ListFooResponse", fields := [], filtering_fields := [],
    required_fields := [], nested_schemas := [], supports_create := false,
    supports_delete := true, supports_modify := false, group := "other",
    schema_version := "2", restrictions := ["create"] }

/-- Witness for C8: restriction list `["create"]` gives
`supports_create = false` and `supports_delete = true`. -/
theorem C8_witness :
    c8ps.restrictions = ["create"] ∧
    c8ps.supports_create = false ∧ c8ps.supports_delete = true :=
  have hc := C8_restrictions cfg0 c8sch "foo" c8ps (by rfl)
  ⟨hc.2.1 ["create"] rfl,
   by rw [hc.2.2.2.2.2.1]; rfl,
   by rw [hc.2.2.2.2.2.2]; rfl⟩

/-- A raw schema with one nameless field. -/
def c1schema : RawSchema :=
  .mk (some "network") none .absent [RawField.mk "" "r" ["string"] false "" "" false none none]

/-- C1 (code bug): `process_field` returns absent for a nameless field,
but `process_schema` then subscripts that `None` (its skip guard is
commented out in the source) and raises `TypeError` — modelled as
`Except.error ()` — instead of silently dropping the field. -/
theorem C1_nameless_field_crash :
    process_field (RawField.mk "" "r" ["string"] false "" "" false none none) = none ∧
    process_schema cfg0 (some c1schema) "network" = .error () := by
  exact ⟨rfl, by rfl⟩

/-- View the binding list of an object value. -/
def objEntries : JVal → JObj
  | .obj kvs => kvs
  | _ => []

theorem mainProps_ref_aux (gen : Config) (ot : String)
    (fields : List (String × ProcessedField)) (props : JObj)
    (hp : getKey props "_ref" = some refProperty) :
    getKey (fields.foldl
      (fun props kv =>
        if kv.1 = "_ref" then props
        else setKey props kv.1 (.obj (buildProperty gen ot kv.1 kv.2))) props)
      "_ref" = some refProperty := by
  induction fields generalizing props with
  | nil => exact hp
  | cons kv rest ih =>
    by_cases hk : kv.1 = "_ref"
    · simp only [List.foldl, hk, if_pos]
      exact ih props hp
    · simp only [List.foldl, hk, if_neg, ite_false]
      exact ih _ (by rw [getKey_setKey_ne _ _ _ _ hk]; exact hp)

/-- C10: a raw field literally named `_ref` is skipped during property
emission, so the primary object schema's `_ref` property is always the
built-in string-typed object-reference property. -/
theorem C10_ref_property (gen : Config) (s : ProcessedSchema) :
    getKey (objEntries (mainSchemaEntry gen s)) "properties" =
      some (.obj (mainSchemaProps gen s)) ∧
    getKey (mainSchemaProps gen s) "_ref" = some refProperty := by
  constructor
  · rw [mainSchemaEntry]
    by_cases hr : s.required_fields = [] <;> simp [hr, objEntries, getKey]
  · rw [mainSchemaProps]
    exact mainProps_ref_aux gen s.object_type s.fields _ (by rfl)

theorem ne_of_length_ne {s t : String} (h : s.length ≠ t.length) : s ≠ t :=
  fun he => h (he ▸ rfl)

theorem updateN_ne_createN (x : String) :
    ("Update" ++ x ++ "Response") ≠ ("Create" ++ x ++ "Response") := by
  intro h
  have hd := congrArg String.data h
  simp [String.data_append,
    show ("Update" : String).data = ['U', 'p', 'd', 'a', 't', 'e'] from rfl,
    show ("Create" : String).data = ['C', 'r', 'e', 'a', 't', 'e'] from rfl] at hd

theorem appRN_ne (p q x : String) (h : p.length ≠ q.length) :
    (p ++ x ++ "Response") ≠ (q ++ x ++ "Response") := by
  refine ne_of_length_ne ?_
  simp only [String.length_append]
  omega

theorem schemaName_ne_appRN (p x : String) (h : 0 < p.length) :
    x ≠ (p ++ x ++ "Response") := by
  refine ne_of_length_ne ?_
  simp only [String.length_append, show ("Response" : String).length = 8 from rfl]
  omega

theorem extAttrs_ne_appRN (p x : String) (h : 0 < p.length) :
    ("ExtAttrs" : String) ≠ (p ++ x ++ "Response") := by
  refine ne_of_length_ne ?_
  simp only [String.length_append, show ("Response" : String).length = 8 from rfl,
    show ("ExtAttrs" : String).length = 8 from rfl]
  omega

/-- C2 (amended): for a normalized schema processed by the Schema
Emitter (stated for a one-schema run without nested-schema references,
with the standard list-response name), the list-response and
get-response variants are always added, the create-response variant is
added iff `supports_create`, and the update-response variant is ALWAYS
added — the source does not gate it on `supports_modify` (see the
counterexample). -/
theorem C2_response_variants (gen : Config) (s : ProcessedSchema)
    (hn : s.nested_schemas = [])
    (hr : s.response_schema_name = "List" ++ s.schema_name ++ "Response") :
    hasKeyB (generate_schemas_for_objects gen [s])
      ("List" ++ s.schema_name ++ "Response") = true ∧
    hasKeyB (generate_schemas_for_objects gen [s])
      ("Get" ++ s.schema_name ++ "Response") = true ∧
    hasKeyB (generate_schemas_for_objects gen [s])
      ("Update" ++ s.schema_name ++ "Response") = true ∧
    hasKeyB (generate_schemas_for_objects gen [s])
      ("Create" ++ s.schema_name ++ "Response") = s.supports_create := by
  simp only [generate_schemas_for_objects, List.foldl, genSchemasStep, hn, hr]
  cases hc : s.supports_create <;>
    simp [hc, hasKeyB, getKey_setKey, getKey,
      updateN_ne_createN s.schema_name,
      appRN_ne "Update" "List" s.schema_name (by decide),
      appRN_ne "Get" "List" s.schema_name (by decide),
      appRN_ne "Create" "List" s.schema_name (by decide),
      appRN_ne "Update" "Get" s.schema_name (by decide),
      appRN_ne "Get" "Create" s.schema_name (by decide),
      appRN_ne "List" "Create" s.schema_name (by decide),
      schemaName_ne_appRN "List" s.schema_name (by decide),
      schemaName_ne_appRN "Get" s.schema_name (by decide),
      schemaName_ne_appRN "Update" s.schema_name (by decide),
      schemaName_ne_appRN "Create" s.schema_name (by decide),
      extAttrs_ne_appRN "List" s.schema_name (by decide),
      extAttrs_ne_appRN "Get" s.schema_name (by decide),
      extAttrs_ne_appRN "Update" s.schema_name (by decide),
      extAttrs_ne_appRN "Create" s.schema_name (by decide)]

/-- A schema with `supports_modify = false` for the C2 counterexample
and witness. -/
def c2s : ProcessedSchema :=
  { object_type := "foo", object_name := "foo", schema_name := "Foo",
    response_schema_name := "ListFooResponse", fields := [], filtering_fields := [],
    required_fields := [], nested_schemas := [], supports_create := true,
    supports_delete := true, supports_modify := false, group := "other",
    schema_version := "2", restrictions := [] }

/-- C2 counterexample: a schema with `supports_modify = false` still
gets an `UpdateFooResponse` variant in the emitted map, refuting the
"if and only if supports_modify" part of the claim. -/
theorem C2_cex_update_always_emitted :
    c2s.supports_modify = false ∧
    hasKeyB (generate_schemas_for_objects cfg0 [c2s]) "UpdateFooResponse" = true := by
  exact ⟨rfl, by rfl⟩

/-- Witness for C2 at the concrete schema `c2s`. -/
theorem C2_witness :
    hasKeyB (generate_schemas_for_objects cfg0 [c2s])
      ("List" ++ c2s.schema_name ++ "Response") = true ∧
    hasKeyB (generate_schemas_for_objects cfg0 [c2s])
      ("Get" ++ c2s.schema_name ++ "Response") = true ∧
    hasKeyB (generate_schemas_for_objects cfg0 [c2s])
      ("Update" ++ c2s.schema_name ++ "Response") = true ∧
    hasKeyB (generate_schemas_for_objects cfg0 [c2s])
      ("Create" ++ c2s.schema_name ++ "Response") = c2s.supports_create :=
  C2_response_variants cfg0 c2s rfl (by rfl)

theorem length_filterMap_ite {α β : Type _} (p : α → Bool) (g : α → β) (l : List α) :
    (l.filterMap (fun a => if p a then some (g a) else none)).length =
      (l.filter p).length := by
  induction l with
  | nil => rfl
  | cons a rest ih =>
    by_cases hp : p a <;> simp [List.filterMap_cons, List.filter_cons, hp, ih]

theorem collectionPath_ne_itemPath (ot : String) :
    ("/" ++ ot) ≠ ("/" ++ ot ++ "/{reference}") := by
  refine ne_of_length_ne ?_
  simp only [String.length_append, show ("/{reference}" : String).length = 12 from rfl]
  omega

/-- C7: the Path Emitter generates, per normalized schema, the
collection path with GET always present and POST iff `supports_create`,
and the item path with GET always present (leading required string
`reference` path parameter), PUT iff `supports_modify` (which is true
iff some field's operations string contains `w`), and DELETE iff
`supports_delete` with one additional optional query parameter per
delete-only field. -/
theorem C7_paths (gen : Config) (sch : RawSchema) (object_type : String)
    (ps : ProcessedSchema)
    (h : process_schema gen (some sch) object_type = .ok (some ps)) :
    generate_group_api_paths [ps] =
      [("/" ++ ps.object_type, .obj (collectionPathItem ps)),
       ("/" ++ ps.object_type ++ "/{reference}", .obj (itemPathItem ps))] ∧
    hasKeyB (collectionPathItem ps) "get" = true ∧
    hasKeyB (collectionPathItem ps) "post" = ps.supports_create ∧
    hasKeyB (itemPathItem ps) "get" = true ∧
    getKey (objEntries (itemGetOp ps)) "parameters" =
      some (.arr ([referenceParam ps.object_type] ++
        [paramRef "ReturnFields", paramRef "ReturnFieldsPlus",
         paramRef "ReturnAsObject", paramRef "Inheritance"])) ∧
    getKey (objEntries (referenceParam ps.object_type)) "required" =
      some (.bool true) ∧
    getKey (objEntries (referenceParam ps.object_type)) "schema" =
      some (.obj [("type", .str "string")]) ∧
    hasKeyB (itemPathItem ps) "put" = ps.supports_modify ∧
    hasKeyB (itemPathItem ps) "delete" = ps.supports_delete ∧
    ps.supports_modify = ps.fields.any (fun kv => charIn 'w' kv.2.supports) ∧
    getKey (objEntries (itemDeleteOp ps)) "parameters" =
      some (.arr (deleteParams ps)) ∧
    deleteParams ps = referenceParam ps.object_type ::
      ps.fields.filterMap
        (fun kv => if kv.2.deleteonly then some (deleteQueryParam kv.1 kv.2) else none) ∧
    (deleteParams ps).length =
      1 + (ps.fields.filter (fun kv => kv.2.deleteonly)).length ∧
    (∀ fn : String, ∀ fd : ProcessedField,
      getKey (objEntries (deleteQueryParam fn fd)) "required" = some (.bool false)) := by
  refine ⟨?_, ?_, ?_, ?_, by rfl, by rfl, by rfl, ?_, ?_, ?_, by rfl, by rfl, ?_,
    fun fn fd => by rfl⟩
  · simp [generate_group_api_paths, setKey, collectionPath_ne_itemPath ps.object_type]
  · cases hc : ps.supports_create <;>
      simp [collectionPathItem, hc, hasKeyB, getKey_setKey, getKey]
  · cases hc : ps.supports_create <;>
      simp [collectionPathItem, hc, hasKeyB, getKey_setKey, getKey]
  · cases hm : ps.supports_modify <;> cases hd : ps.supports_delete <;>
      simp [itemPathItem, hm, hd, hasKeyB, getKey_setKey, getKey]
  · cases hm : ps.supports_modify <;> cases hd : ps.supports_delete <;>
      simp [itemPathItem, hm, hd, hasKeyB, getKey_setKey, getKey]
  · cases hm : ps.supports_modify <;> cases hd : ps.supports_delete <;>
      simp [itemPathItem, hm, hd, hasKeyB, getKey_setKey, getKey]
  · simp only [process_schema] at h
    cases hst : processSchemaFields (sch.typeName.getD object_type) sch.fields
        ⟨[], [], [], []⟩ with
    | error e => rw [hst] at h; cases h
    | ok st =>
      rw [hst] at h
      simp only [Except.ok.injEq, Option.some.injEq] at h
      subst h
      rfl
  · rw [show deleteParams ps = referenceParam ps.object_type ::
        ps.fields.filterMap (fun kv =>
          if kv.2.deleteonly then some (deleteQueryParam kv.1 kv.2) else none) from rfl]
    simp only [List.length_cons]
    rw [length_filterMap_ite (fun kv => kv.2.deleteonly)
      (fun kv => deleteQueryParam kv.1 kv.2) ps.fields]
    omega

/-- Raw schema for the C7 witness: one writable field, one delete-only
field. -/
def c7sch : RawSchema :=
  .mk (some "record:a") none .absent
    [RawField.mk "name" "rws" ["string"] false "" "" true none none,
     RawField.mk "remove_associated_ptr" "d" ["bool"] false "" "" false none none]

/-- The processed record of `c7sch`. -/
def c7pf1 : ProcessedField :=
  { name := "name", type_ := "string", original_type := "string", description := "",
    readonly := false, writeonly := false, deleteonly := false,
    supports_filtering := false, searchable_by := "", required := true,
    is_array := false, enum := none, supports := "rws", nested_schema := none }

def c7pf2 : ProcessedField :=
  { name := "remove_associated_ptr", type_ := "bool", original_type := "bool",
    description := "", readonly := false, writeonly := false, deleteonly := true,
    supports_filtering := false, searchable_by := "", required := false,
    is_array := false, enum := none, supports := "d", nested_schema := none }

def c7ps : ProcessedSchema :=
  { object_type := "record:a", object_name := "record_a", schema_name := "RecordA",
    response_schema_name := "ListRecordAResponse",
    fields := [("name", c7pf1), ("remove_associated_ptr", c7pf2)],
    filtering_fields := [], required_fields := ["name"], nested_schemas := [],
    supports_create := true, supports_delete := true, supports_modify := true,
    group := "other", schema_version := "2", restrictions := [] }

/-- Witness for C7 at the concrete schema `c7sch`. -/
theorem C7_witness :
    hasKeyB (collectionPathItem c7ps) "post" = c7ps.supports_create ∧
    hasKeyB (itemPathItem c7ps) "put" = c7ps.supports_modify ∧
    hasKeyB (itemPathItem c7ps) "delete" = c7ps.supports_delete ∧
    (deleteParams c7ps).length =
      1 + (c7ps.fields.filter (fun kv => kv.2.deleteonly)).length :=
  have hc := C7_paths cfg0 c7sch "record:a" c7ps (by rfl)
  ⟨hc.2.2.1, hc.2.2.2.2.2.2.2.1, hc.2.2.2.2.2.2.2.2.1, hc.2.2.2.2.2.2.2.2.2.2.2.2.1⟩

theorem memStr_cons_of {c : List String} {x : String} (y : String)
    (hx : memStr c x = true) : memStr (y :: c) x = true := by
  by_cases h : y = x <;> simp [memStr, h, hx]

mutual

/-- The created-schemas set only grows across nested expansion. -/
theorem pnsf_created_mono (gen : Config) (entry : NestedEntry)
    (created : List String) (sd : JObj) (x : String)
    (hx : memStr created x = true) :
    memStr (process_nested_schema_fields gen entry created sd).1 x = true := by
  rw [process_nested_schema_fields]
  by_cases hmem : memStr created entry.name = true
  · simpa [hmem] using hx
  · simp only [hmem, Bool.false_eq_true, if_false]
    cases hsch : entry.schema with
    | mk a b c fs =>
      exact pnsfLoop_created_mono gen entry.name fs (entry.name :: created) _ x
        (memStr_cons_of entry.name hx)
termination_by sizeOf entry.schema
decreasing_by
  rw [hsch]
  simp <;> omega

/-- The created-schemas set only grows across the nested field loop. -/
theorem pnsfLoop_created_mono (gen : Config) (schema_name : String)
    (fs : List RawField) (created : List String) (sd : JObj) (x : String)
    (hx : memStr created x = true) :
    memStr (pnsfLoop gen schema_name fs created sd).1 x = true := by
  match fs with
  | [] => simpa [pnsfLoop] using hx
  | .mk fname fsup ftys farr fdoc fsby freq fenv fns :: rest =>
    rw [pnsfLoop]
    cases hf : process_field (.mk fname fsup ftys farr fdoc fsby freq fenv fns) with
    | none => exact pnsfLoop_created_mono gen schema_name rest created sd x hx
    | some pf =>
      cases fns with
      | none => exact pnsfLoop_created_mono gen schema_name rest _ _ x hx
      | some ns =>
        exact pnsfLoop_created_mono gen schema_name rest _ _ x
          (pnsf_created_mono gen _ created sd x hx)
termination_by sizeOf fs
decreasing_by
  all_goals try simp only [NestedEntry.schema]
  all_goals simp <;> omega

end

/-- C6: nested-schema expansion is idempotent with respect to the
de-duplication set: a child schema name already in the created set
returns the map unchanged, and a second call for the same entry right
after the first changes nothing. -/
theorem C6_nested_expansion_idempotent (gen : Config) (entry : NestedEntry)
    (created : List String) (sd : JObj) :
    (memStr created entry.name = true →
      process_nested_schema_fields gen entry created sd = (created, sd)) ∧
    process_nested_schema_fields gen entry
      (process_nested_schema_fields gen entry created sd).1
      (process_nested_schema_fields gen entry created sd).2 =
      process_nested_schema_fields gen entry created sd := by
  constructor
  · intro hmem
    rw [process_nested_schema_fields]
    simp [hmem]
  · have hmem2 : memStr (process_nested_schema_fields gen entry created sd).1
        entry.name = true := by
      by_cases hmem : memStr created entry.name = true
      · rw [process_nested_schema_fields]
        simpa [hmem] using hmem
      · rw [process_nested_schema_fields]
        simp only [hmem, Bool.false_eq_true, if_false]
        cases hsch : entry.schema with
        | mk a b c fs =>
          exact pnsfLoop_created_mono gen entry.name fs (entry.name :: created) _
            entry.name (by simp [memStr])
    conv_lhs => rw [process_nested_schema_fields]
    simp [hmem2]

/-- Witness for C6: expanding a child name already in the created set
is the identity. -/
theorem C6_witness :
    process_nested_schema_fields cfg0
      ⟨"A", RawSchema.mk none none RestrVal.absent [], "f"⟩ ["A"] [] = (["A"], []) :=
  (C6_nested_expansion_idempotent cfg0
    ⟨"A", RawSchema.mk none none RestrVal.absent [], "f"⟩ ["A"] []).1 (by rfl)

mutual

/-- The `$ref`/`type` coexistence invariant over a schema-shaped value:
no object node reachable from it binds both `"$ref"` and `"type"`.  The
value of a `"properties"` key is a map from arbitrary FIELD names to
property definitions, so only its values are checked, not its key set. -/
def sOk : JVal → Bool
  | .str _ => true
  | .num _ => true
  | .bool _ => true
  | .arr vs => sOkArr vs
  | .obj kvs => !(hasKeyB kvs "$ref" && hasKeyB kvs "type") && sOkEntries kvs

/-- The invariant over the bindings of a schema-shaped object. -/
def sOkEntries : JObj → Bool
  | [] => true
  | (k, v) :: rest =>
    (if k = "properties" then sOkProps v else sOk v) && sOkEntries rest

/-- The invariant over a `properties` map: check only the values. -/
def sOkProps : JVal → Bool
  | .obj kvs => sOkVals kvs
  | v => sOk v

/-- The invariant over the values of a map whose keys are data. -/
def sOkVals : JObj → Bool
  | [] => true
  | (_, v) :: rest => sOk v && sOkVals rest

/-- The invariant over a list of values. -/
def sOkArr : List JVal → Bool
  | [] => true
  | v :: rest => sOk v && sOkArr rest

end

theorem sOkArr_map_str (l : List String) : sOkArr (l.map JVal.str) = true := by
  induction l with
  | nil => simp [sOkArr]
  | cons a rest ih => simp [sOkArr, sOk, ih]

theorem sOkVals_setKey (kvs : JObj) (k : String) (v : JVal)
    (h : sOkVals kvs = true) (hv : sOk v = true) :
    sOkVals (setKey kvs k v) = true := by
  induction kvs with
  | nil => simp [setKey, sOkVals, hv]
  | cons kv rest ih =>
    obtain ⟨k0, v0⟩ := kv
    simp only [sOkVals, Bool.and_eq_true] at h
    by_cases h0 : k0 = k <;>
      simp [setKey, h0, sOkVals, h.1, h.2, hv, ih h.2]

theorem sOkEntries_setKey (kvs : JObj) (k : String) (v : JVal)
    (h : sOkEntries kvs = true)
    (hv : (if k = "properties" then sOkProps v else sOk v) = true) :
    sOkEntries (setKey kvs k v) = true := by
  induction kvs with
  | nil => simp [setKey, sOkEntries, hv]
  | cons kv rest ih =>
    obtain ⟨k0, v0⟩ := kv
    simp only [sOkEntries, Bool.and_eq_true] at h
    by_cases h0 : k0 = k
    · subst h0
      simp [setKey, sOkEntries, hv, h.2]
    · simp [setKey, h0, sOkEntries, h.1, h.2, ih h.2]

theorem sOkEntries_delKey (kvs : JObj) (k : String)
    (h : sOkEntries kvs = true) : sOkEntries (delKey kvs k) = true := by
  induction kvs with
  | nil => simpa [delKey] using h
  | cons kv rest ih =>
    obtain ⟨k0, v0⟩ := kv
    simp only [sOkEntries, Bool.and_eq_true] at h
    by_cases h0 : k0 = k <;>
      simp [delKey, h0, sOkEntries, h.1, h.2, ih h.2]

theorem sOkVals_getKey (kvs : JObj) (k : String) (v : JVal)
    (h : sOkVals kvs = true) (hg : getKey kvs k = some v) : sOk v = true := by
  induction kvs with
  | nil => cases hg
  | cons kv rest ih =>
    obtain ⟨k0, v0⟩ := kv
    simp only [sOkVals, Bool.and_eq_true] at h
    by_cases h0 : k0 = k
    · rw [getKey, if_pos h0] at hg
      cases hg
      exact h.1
    · rw [getKey, if_neg h0] at hg
      exact ih h.2 hg

theorem sOkEntries_getKey_props (kvs : JObj) (v : JVal)
    (h : sOkEntries kvs = true) (hg : getKey kvs "properties" = some v) :
    sOkProps v = true := by
  induction kvs with
  | nil => cases hg
  | cons kv rest ih =>
    obtain ⟨k0, v0⟩ := kv
    simp only [sOkEntries, Bool.and_eq_true] at h
    by_cases h0 : k0 = "properties"
    · rw [getKey, if_pos h0] at hg
      cases hg
      have := h.1
      rwa [if_pos h0] at this
    · rw [getKey, if_neg h0] at hg
      exact ih h.2 hg

theorem hasKeyB_false_setKey (kvs : JObj) (a k : String) (v : JVal)
    (h : hasKeyB kvs a = false) (hk : k ≠ a) :
    hasKeyB (setKey kvs k v) a = false := by
  simp only [hasKeyB, getKey_setKey, hk, if_false] at *
  exact h

theorem hasKeyB_setKey_ne_preserved (kvs : JObj) (a k : String) (v : JVal)
    (hk : k ≠ a) : hasKeyB (setKey kvs k v) a = hasKeyB kvs a := by
  simp [hasKeyB, getKey_setKey, hk]

theorem setProp_valsOk (sd : JObj) (name fn : String) (v : JVal)
    (h : sOkVals sd = true) (hv : sOk v = true) :
    sOkVals (setProp sd name fn v) = true := by
  cases hg : getKey sd name with
  | none => simp [setProp, hg, h]
  | some entryv =>
    cases entryv with
    | str s => simp [setProp, hg, h]
    | num n => simp [setProp, hg, h]
    | bool b => simp [setProp, hg, h]
    | arr vs => simp [setProp, hg, h]
    | obj entry =>
      cases hgp : getKey entry "properties" with
      | none => simp [setProp, hg, hgp, h]
      | some pv =>
        cases pv with
        | str s => simp [setProp, hg, hgp, h]
        | num n => simp [setProp, hg, hgp, h]
        | bool b => simp [setProp, hg, hgp, h]
        | arr vs => simp [setProp, hg, hgp, h]
        | obj props =>
          have hentry : sOk (.obj entry) = true := sOkVals_getKey sd name _ h hg
          simp only [sOk, Bool.and_eq_true, Bool.not_eq_true'] at hentry
          have hprops : sOkVals props = true := by
            have := sOkEntries_getKey_props entry _ hentry.2 hgp
            simpa [sOkProps] using this
          simp only [setProp, hg, hgp]
          apply sOkVals_setKey sd name _ h
          simp only [sOk, Bool.and_eq_true, Bool.not_eq_true']
          constructor
          · rw [hasKeyB_setKey_ne_preserved entry "$ref" "properties" _ (by decide)]
            rw [hasKeyB_setKey_ne_preserved entry "type" "properties" _ (by decide)]
            exact hentry.1
          · exact sOkEntries_setKey entry "properties" _ hentry.2
              (by simp only [if_pos, sOkProps]
                  exact sOkVals_setKey props fn v hprops hv)

theorem sOk_obj_of (p : JObj) (h : sOkEntries p = true)
    (hrt : hasKeyB p "$ref" = false ∨ hasKeyB p "type" = false) :
    sOk (.obj p) = true := by
  simp only [sOk, Bool.and_eq_true, Bool.not_eq_true']
  refine ⟨?_, h⟩
  rcases hrt with h1 | h1 <;> simp [h1]

theorem convert_sOkEntries (g : ConvInput) :
    sOkEntries (convert_field_type_to_openapi g) = true := by
  simp only [convert_field_type_to_openapi]
  repeat' split
  all_goals
    simp [sOkEntries, sOk, sOkProps, sOkVals, sOkArr, setKey, sOkArr_map_str]

theorem convert_hasRef_false (g : ConvInput) :
    hasKeyB (convert_field_type_to_openapi g) "$ref" = false := by
  simp [hasKeyB, convert_getKey_ref g]

theorem convert_sOk (g : ConvInput) :
    sOk (.obj (convert_field_type_to_openapi g)) = true :=
  sOk_obj_of _ (convert_sOkEntries g) (Or.inl (convert_hasRef_false g))

theorem funcCallOneOf_sOk (ot fn d : String) : sOk (funcCallOneOf ot fn d) = true := by
  by_cases h : fn = "network" <;>
    simp [funcCallOneOf, h, sOk, sOkArr, sOkEntries, sOkProps, sOkVals,
      hasKeyB, getKey]

theorem addExample_sOkEntries (fn : String) (p : JObj) (h : sOkEntries p = true) :
    sOkEntries (addExample fn p) = true := by
  unfold addExample
  repeat' split
  all_goals first
    | exact h
    | (apply sOkEntries_setKey p "example" _ h
       simp [sOk])

theorem addExample_getKey (fn : String) (p : JObj) (k : String)
    (hk : k ≠ "example") : getKey (addExample fn p) k = getKey p k := by
  unfold addExample
  repeat' split
  all_goals simp [getKey_setKey]
  all_goals (intro h; exact absurd h.symm hk)

theorem refCleanup_sOk (p : JObj) (h : sOkEntries p = true) :
    sOk (.obj (refCleanup p)) = true := by
  unfold refCleanup
  by_cases hr : hasKeyB p "$ref" = true
  · simp only [hr, if_true]
    refine sOk_obj_of _ (sOkEntries_delKey p "type" h) (Or.inr ?_)
    simp [hasKeyB, getKey_delKey_self]
  · simp only [hr, if_false]
    refine sOk_obj_of _ h (Or.inl ?_)
    simpa using hr

theorem convert_type_val_sOk (g : ConvInput) :
    sOk ((getKey (convert_field_type_to_openapi g) "type").getD (.str "string")) = true := by
  rw [convert_getKey_type]
  cases typeMapping g.type_ <;> simp [sOk] <;> split_ifs <;> simp [sOk]

theorem convert_enum_val_sOk (g : ConvInput) (e : JVal)
    (he : getKey (convert_field_type_to_openapi g) "enum" = some e) :
    sOk e = true := by
  rw [convert_getKey_enum] at he
  cases hge : g.enum with
  | none =>
    simp only [hge] at he
    split_ifs at he
    all_goals try cases he
    all_goals simp [sOk, sOkArr]
  | some l =>
    simp only [hge] at he
    by_cases hl : l = []
    · rw [if_pos hl] at he
      split_ifs at he
      all_goals try cases he
      all_goals simp [sOk, sOkArr]
    · rw [if_neg hl] at he
      cases he
      simp [sOk, sOkArr_map_str]

theorem arrayItemsObj_sOk (pp : Option String) (ot : String) :
    sOk (.obj (arrayItemsObj pp ot)) = true := by
  unfold arrayItemsObj
  cases he : getKey (convert_field_type_to_openapi
      { type_ := ot, original_type := ot, description := "",
        readonly := false, writeonly := false, parent_property := pp }) "enum" with
  | none =>
    simp only [he]
    refine sOk_obj_of _ ?_ (Or.inl (by simp [hasKeyB, getKey]))
    simp [sOkEntries, convert_type_val_sOk]
  | some e =>
    simp only [he]
    have hse := convert_enum_val_sOk _ e he
    refine sOk_obj_of _ ?_ (Or.inl ?_)
    · apply sOkEntries_setKey
      · simp [sOkEntries, convert_type_val_sOk]
      · simpa using hse
    · apply hasKeyB_false_setKey
      · simp [hasKeyB, getKey]
      · decide

theorem bpSpecial_sOkEntries (gen : Config) (ot fn : String) (fd : ProcessedField) :
    sOkEntries (bpSpecial gen ot fn fd) = true := by
  unfold bpSpecial
  dsimp only
  split_ifs
  · apply sOkEntries_setKey _ _ _ (convert_sOkEntries _)
    simp [sOk, sOkEntries, hasKeyB, getKey]
  · apply sOkEntries_setKey _ _ _
      (sOkEntries_delKey _ _ (convert_sOkEntries _))
    simpa using funcCallOneOf_sOk ot fn fd.description
  · exact convert_sOkEntries _

theorem bpSpecial_hasRef_false (gen : Config) (ot fn : String) (fd : ProcessedField) :
    hasKeyB (bpSpecial gen ot fn fd) "$ref" = false := by
  unfold bpSpecial
  dsimp only
  split_ifs
  · exact hasKeyB_false_setKey _ _ _ _ (convert_hasRef_false _) (by decide)
  · apply hasKeyB_false_setKey _ _ _ _ _ (by decide)
    simp [hasKeyB,
      getKey_delKey (convert_field_type_to_openapi fd.toConv) "$ref" "type" (by decide),
      convert_getKey_ref]
  · exact convert_hasRef_false _

theorem bpNested_sOk (gen : Config) (ot fn : String) (fd : ProcessedField) :
    sOkEntries (bpNested gen ot fn fd) = true ∧
    (hasKeyB (bpNested gen ot fn fd) "$ref" = false ∨
     hasKeyB (bpNested gen ot fn fd) "type" = false) := by
  unfold bpNested
  cases fd.nested_schema_name with
  | some nsn =>
    split_ifs
    · constructor
      · apply sOkEntries_setKey
        · apply sOkEntries_setKey _ _ _ (bpSpecial_sOkEntries gen ot fn fd)
          simp [sOk]
        · simp [sOk, sOkEntries, hasKeyB, getKey]
      · refine Or.inl ?_
        apply hasKeyB_false_setKey _ _ _ _ _ (by decide)
        exact hasKeyB_false_setKey _ _ _ _ (bpSpecial_hasRef_false gen ot fn fd)
          (by decide)
    · exact ⟨by simp [sOkEntries, sOk], Or.inr (by simp [hasKeyB, getKey])⟩
  | none =>
    split_ifs
    · constructor
      · apply sOkEntries_setKey
        · apply sOkEntries_setKey _ _ _ (bpSpecial_sOkEntries gen ot fn fd)
          simp [sOk]
        · simpa using arrayItemsObj_sOk (some "is_array") fd.original_type
      · refine Or.inl ?_
        apply hasKeyB_false_setKey _ _ _ _ _ (by decide)
        exact hasKeyB_false_setKey _ _ _ _ (bpSpecial_hasRef_false gen ot fn fd)
          (by decide)
    · exact ⟨bpSpecial_sOkEntries gen ot fn fd,
        Or.inl (bpSpecial_hasRef_false gen ot fn fd)⟩

theorem buildProperty_sOk (gen : Config) (ot fn : String) (fd : ProcessedField) :
    sOk (.obj (buildProperty gen ot fn fd)) = true := by
  obtain ⟨h1, h2⟩ := bpNested_sOk gen ot fn fd
  unfold buildProperty
  dsimp only
  split_ifs with hex
  · refine sOk_obj_of _ (addExample_sOkEntries _ _ h1) ?_
    have hr : getKey (addExample fn (bpNested gen ot fn fd)) "$ref" =
        getKey (bpNested gen ot fn fd) "$ref" :=
      addExample_getKey fn _ "$ref" (by decide)
    have ht : getKey (addExample fn (bpNested gen ot fn fd)) "type" =
        getKey (bpNested gen ot fn fd) "type" :=
      addExample_getKey fn _ "type" (by decide)
    rcases h2 with h2 | h2
    · exact Or.inl (by simp only [hasKeyB, hr]
                       simpa [hasKeyB] using h2)
    · exact Or.inr (by simp only [hasKeyB, ht]
                       simpa [hasKeyB] using h2)
  · exact sOk_obj_of _ h1 h2

theorem pnsfBase_sOkEntries (gen : Config) (pf : ProcessedField) :
    sOkEntries (pnsfBase gen pf) = true := by
  unfold pnsfBase
  split_ifs
  · exact addExample_sOkEntries _ _ (convert_sOkEntries _)
  · exact convert_sOkEntries _

theorem pnsfBase_hasRef_false (gen : Config) (pf : ProcessedField) :
    hasKeyB (pnsfBase gen pf) "$ref" = false := by
  unfold pnsfBase
  dsimp only
  split_ifs
  · simp [hasKeyB,
      addExample_getKey pf.name (convert_field_type_to_openapi pf.toConv) "$ref" (by decide),
      convert_getKey_ref]
  · exact convert_hasRef_false _

theorem pnsfFieldProp_sOkEntries (gen : Config) (sn : String)
    (pf : ProcessedField) (fns : Option RawSchema) :
    sOkEntries (pnsfFieldProp gen sn pf fns) = true := by
  cases fns with
  | some ns =>
    unfold pnsfFieldProp
    dsimp only
    split_ifs
    · simp [sOkEntries, sOk, sOkProps, sOkVals, hasKeyB, getKey]
    · apply sOkEntries_setKey _ _ _ (pnsfBase_sOkEntries gen pf)
      simp [sOk]
  | none =>
    unfold pnsfFieldProp
    dsimp only
    split_ifs
    · apply sOkEntries_setKey
      · apply sOkEntries_setKey _ _ _ (pnsfBase_sOkEntries gen pf)
        simp [sOk]
      · simp [sOk, sOkEntries, hasKeyB, getKey]
    · apply sOkEntries_setKey
      · apply sOkEntries_setKey _ _ _ (pnsfBase_sOkEntries gen pf)
        simp [sOk]
      · simpa using arrayItemsObj_sOk none pf.original_type
    · exact pnsfBase_sOkEntries gen pf

theorem pnsfFieldProp_cleaned_sOk (gen : Config) (sn : String)
    (pf : ProcessedField) (fns : Option RawSchema) :
    sOk (.obj (refCleanup (pnsfFieldProp gen sn pf fns))) = true :=
  refCleanup_sOk _ (pnsfFieldProp_sOkEntries gen sn pf fns)

mutual

/-- Nested expansion preserves the coexistence invariant of every value
in the schemas map. -/
theorem pnsf_valsOk (gen : Config) (entry : NestedEntry) (created : List String)
    (sd : JObj) (h : sOkVals sd = true) :
    sOkVals (process_nested_schema_fields gen entry created sd).2 = true := by
  rw [process_nested_schema_fields]
  by_cases hmem : memStr created entry.name = true
  · simpa [hmem] using h
  · simp only [hmem, Bool.false_eq_true, if_false]
    cases hsch : entry.schema with
    | mk a b c fs =>
      apply pnsfLoop_valsOk
      apply sOkVals_setKey _ _ _ h
      simp [sOk, sOkEntries, sOkProps, sOkVals, hasKeyB, getKey]
termination_by sizeOf entry.schema
decreasing_by
  rw [hsch]
  simp <;> omega

/-- The nested field loop preserves the coexistence invariant of every
value in the schemas map. -/
theorem pnsfLoop_valsOk (gen : Config) (schema_name : String) (fs : List RawField)
    (created : List String) (sd : JObj) (h : sOkVals sd = true) :
    sOkVals (pnsfLoop gen schema_name fs created sd).2 = true := by
  match fs with
  | [] => simpa [pnsfLoop] using h
  | .mk fname fsup ftys farr fdoc fsby freq fenv fns :: rest =>
    rw [pnsfLoop]
    cases hf : process_field (.mk fname fsup ftys farr fdoc fsby freq fenv fns) with
    | none => exact pnsfLoop_valsOk gen schema_name rest created sd h
    | some pf =>
      cases fns with
      | none =>
        apply pnsfLoop_valsOk
        exact setProp_valsOk _ _ _ _ h
          (pnsfFieldProp_cleaned_sOk gen schema_name pf none)
      | some ns =>
        apply pnsfLoop_valsOk
        apply setProp_valsOk
        · exact pnsf_valsOk gen _ created sd h
        · exact pnsfFieldProp_cleaned_sOk gen schema_name pf (some ns)
termination_by sizeOf fs
decreasing_by
  all_goals try simp only [NestedEntry.schema]
  all_goals simp <;> omega

end

theorem extAttrs_sOk : sOk generate_extensible_attributes_schema = true := by
  simp [generate_extensible_attributes_schema, sOk, sOkArr, sOkEntries,
    sOkProps, sOkVals, hasKeyB, getKey]

theorem listResponseVal_sOk (a b : String) : sOk (listResponseVal a b) = true := by
  simp [listResponseVal, sOk, sOkArr, sOkEntries, sOkProps, sOkVals, hasKeyB, getKey]

theorem createResponseVal_sOk (a : String) : sOk (createResponseVal a) = true := by
  simp [createResponseVal, sOk, sOkArr, sOkEntries, sOkProps, sOkVals, hasKeyB, getKey]

theorem getResponseVal_sOk (a : String) : sOk (getResponseVal a) = true := by
  simp [getResponseVal, sOk, sOkArr, sOkEntries, sOkProps, sOkVals, hasKeyB, getKey]

theorem updateResponseVal_sOk (a : String) : sOk (updateResponseVal a) = true := by
  simp [updateResponseVal, sOk, sOkArr, sOkEntries, sOkProps, sOkVals, hasKeyB, getKey]

theorem mainProps_sOk_aux (gen : Config) (ot : String)
    (fields : List (String × ProcessedField)) (props : JObj)
    (hp : sOkVals props = true) :
    sOkVals (fields.foldl
      (fun props kv =>
        if kv.1 = "_ref" then props
        else setKey props kv.1 (.obj (buildProperty gen ot kv.1 kv.2))) props) = true := by
  induction fields generalizing props with
  | nil => exact hp
  | cons kv rest ih =>
    by_cases hk : kv.1 = "_ref"
    · simp only [List.foldl, hk, if_pos]
      exact ih props hp
    · simp only [List.foldl, hk, if_neg, ite_false]
      exact ih _ (sOkVals_setKey _ _ _ hp (buildProperty_sOk gen ot kv.1 kv.2))

theorem mainSchemaEntry_sOk (gen : Config) (s : ProcessedSchema) :
    sOk (mainSchemaEntry gen s) = true := by
  have hprops : sOkVals (mainSchemaProps gen s) = true := by
    rw [mainSchemaProps]
    apply mainProps_sOk_aux gen s.object_type s.fields
    simp [sOkVals, refProperty, sOk, sOkEntries, hasKeyB, getKey]
  rw [mainSchemaEntry]
  split_ifs <;>
    simp [sOk, sOkEntries, sOkProps, sOkVals, sOkArr, hasKeyB, getKey,
      hprops, sOkArr_map_str]

theorem nestedFold_valsOk (gen : Config) (l : List NestedEntry)
    (cs : List String × JObj) (h : sOkVals cs.2 = true) :
    sOkVals (l.foldl
      (fun (cs : List String × JObj) ne =>
        process_nested_schema_fields gen ne cs.1 cs.2) cs).2 = true := by
  induction l generalizing cs with
  | nil => exact h
  | cons ne rest ih => exact ih _ (pnsf_valsOk gen ne cs.1 cs.2 h)

theorem genSchemasStep_valsOk (gen : Config) (acc : List String × JObj)
    (s : ProcessedSchema) (h : sOkVals acc.2 = true) :
    sOkVals (genSchemasStep gen acc s).2 = true := by
  unfold genSchemasStep
  dsimp only
  apply sOkVals_setKey _ _ _ _ (updateResponseVal_sOk s.schema_name)
  apply sOkVals_setKey _ _ _ _ (getResponseVal_sOk s.schema_name)
  split_ifs
  · apply sOkVals_setKey _ _ _ _ (createResponseVal_sOk s.schema_name)
    apply sOkVals_setKey _ _ _ _
      (listResponseVal_sOk s.schema_name s.response_schema_name)
    apply nestedFold_valsOk
    exact sOkVals_setKey _ _ _ h (mainSchemaEntry_sOk gen s)
  · apply sOkVals_setKey _ _ _ _
      (listResponseVal_sOk s.schema_name s.response_schema_name)
    apply nestedFold_valsOk
    exact sOkVals_setKey _ _ _ h (mainSchemaEntry_sOk gen s)

theorem generate_schemas_valsOk (gen : Config) (schemas : List ProcessedSchema) :
    sOkVals (generate_schemas_for_objects gen schemas) = true := by
  rw [generate_schemas_for_objects]
  have hstep : ∀ (l : List ProcessedSchema) (acc : List String × JObj),
      sOkVals acc.2 = true → sOkVals (l.foldl (genSchemasStep gen) acc).2 = true := by
    intro l
    induction l with
    | nil => exact fun acc h => h
    | cons s rest ih => exact fun acc h => ih _ (genSchemasStep_valsOk gen acc s h)
  apply hstep
  simp [sOkVals, extAttrs_sOk]

theorem buildProperty_nested_array (gen : Config) (ot fn : String)
    (fd : ProcessedField) (nsn : String)
    (hn : fd.nested_schema_name = some nsn) (ha : fd.is_array = true) :
    getKey (buildProperty gen ot fn fd) "type" = some (.str "array") ∧
    getKey (buildProperty gen ot fn fd) "items" =
      some (.obj [("$ref", .str ("#/components/schemas/" ++ nsn))]) := by
  have hstep : bpNested gen ot fn fd =
      setKey (setKey (bpSpecial gen ot fn fd) "type" (.str "array")) "items"
        (.obj [("$ref", .str ("#/components/schemas/" ++ nsn))]) := by
    unfold bpNested
    rw [hn]
    simp [ha]
  unfold buildProperty
  rw [hstep]
  by_cases hex : gen.include_examples = true
  · rw [if_pos hex]
    constructor
    · rw [addExample_getKey fn _ "type" (by decide)]
      simp [getKey_setKey]
    · rw [addExample_getKey fn _ "items" (by decide)]
      simp [getKey_setKey]
  · rw [if_neg hex]
    exact ⟨by simp [getKey_setKey], by simp [getKey_setKey]⟩

theorem buildProperty_nested_ref (gen : Config) (ot fn : String)
    (fd : ProcessedField) (nsn : String)
    (hn : fd.nested_schema_name = some nsn) (ha : fd.is_array = false) :
    buildProperty gen ot fn fd =
      [("$ref", .str ("#/components/schemas/" ++ nsn))] := by
  have hstep : bpNested gen ot fn fd =
      [("$ref", .str ("#/components/schemas/" ++ nsn))] := by
    unfold bpNested
    rw [hn]
    simp [ha]
  unfold buildProperty
  rw [hstep]
  by_cases hex : gen.include_examples = true
  · rw [if_pos hex]
    simp [addExample, getKey]
  · rw [if_neg hex]

theorem pnsfProp_nested_array (gen : Config) (sn : String) (pf : ProcessedField)
    (ns : RawSchema) (ha : pf.is_array = true) :
    refCleanup (pnsfFieldProp gen sn pf (some ns)) =
      [("type", .str "array"), ("description", .str pf.description),
       ("items", .obj [("$ref", .str ("#/components/schemas/" ++
         to_pascal_case (sn ++ "_" ++ pf.name)))])] := by
  have hstep : pnsfFieldProp gen sn pf (some ns) =
      [("type", .str "array"), ("description", .str pf.description),
       ("items", .obj [("$ref", .str ("#/components/schemas/" ++
         to_pascal_case (sn ++ "_" ++ pf.name)))])] := by
    unfold pnsfFieldProp
    simp [ha]
  rw [hstep]
  simp [refCleanup, hasKeyB, getKey]

theorem pnsfProp_nested_ref (gen : Config) (sn : String) (pf : ProcessedField)
    (ns : RawSchema) (ha : pf.is_array = false) :
    getKey (refCleanup (pnsfFieldProp gen sn pf (some ns))) "$ref" =
      some (.str ("#/components/schemas/" ++
        to_pascal_case (sn ++ "_" ++ pf.name))) ∧
    getKey (refCleanup (pnsfFieldProp gen sn pf (some ns))) "type" = none := by
  have hstep : pnsfFieldProp gen sn pf (some ns) =
      setKey (pnsfBase gen pf) "$ref"
        (.str ("#/components/schemas/" ++ to_pascal_case (sn ++ "_" ++ pf.name))) := by
    unfold pnsfFieldProp
    simp [ha]
  rw [hstep]
  unfold refCleanup
  have h1 : hasKeyB (setKey (pnsfBase gen pf) "$ref"
      (.str ("#/components/schemas/" ++ to_pascal_case (sn ++ "_" ++ pf.name))))
      "$ref" = true := by
    simp [hasKeyB, getKey_setKey]
  rw [if_pos h1]
  constructor
  · rw [getKey_delKey _ _ _ (by decide)]
    simp [getKey_setKey]
  · exact getKey_delKey_self _ _

/-- C9: for every field carrying a nested-schema reference, the emitted
property is an array whose items reference the child schema when the
field is an array, and a direct reference to the child schema when it
is not (with the sibling `type` key removed); and every value emitted
into the components.schemas map satisfies the invariant that no object
node inside it binds both `$ref` and `type`. -/
theorem C9_nested_refs_no_ref_type_coexistence (gen : Config) :
    (∀ schemas : List ProcessedSchema,
      sOkVals (generate_schemas_for_objects gen schemas) = true) ∧
    (∀ ot fn : String, ∀ fd : ProcessedField, ∀ nsn : String,
      fd.nested_schema_name = some nsn →
      (fd.is_array = true →
        getKey (buildProperty gen ot fn fd) "type" = some (.str "array") ∧
        getKey (buildProperty gen ot fn fd) "items" =
          some (.obj [("$ref", .str ("#/components/schemas/" ++ nsn))])) ∧
      (fd.is_array = false →
        buildProperty gen ot fn fd =
          [("$ref", .str ("#/components/schemas/" ++ nsn))])) ∧
    (∀ sn : String, ∀ pf : ProcessedField, ∀ ns : RawSchema,
      (pf.is_array = true →
        refCleanup (pnsfFieldProp gen sn pf (some ns)) =
          [("type", .str "array"), ("description", .str pf.description),
           ("items", .obj [("$ref", .str ("#/components/schemas/" ++
             to_pascal_case (sn ++ "_" ++ pf.name)))])]) ∧
      (pf.is_array = false →
        getKey (refCleanup (pnsfFieldProp gen sn pf (some ns))) "$ref" =
          some (.str ("#/components/schemas/" ++
            to_pascal_case (sn ++ "_" ++ pf.name))) ∧
        getKey (refCleanup (pnsfFieldProp gen sn pf (some ns))) "type" = none)) :=
  ⟨generate_schemas_valsOk gen,
   fun ot fn fd nsn hn =>
     ⟨fun ha => buildProperty_nested_array gen ot fn fd nsn hn ha,
      fun ha => buildProperty_nested_ref gen ot fn fd nsn hn ha⟩,
   fun sn pf ns =>
     ⟨fun ha => pnsfProp_nested_array gen sn pf ns ha,
      fun ha => pnsfProp_nested_ref gen sn pf ns ha⟩⟩

/-- Field records for the C9 witness. -/
def c9fdArr : ProcessedField :=
  { name := "options", type_ := "array", original_type := "dhcpoption",
    description := "", readonly := false, writeonly := false, deleteonly := false,
    supports_filtering := false, searchable_by := "", required := false,
    is_array := true, enum := none, supports := "rw", nested_schema := none,
    nested_schema_name := some "NetworkOptions" }

def c9fdPlain : ProcessedField :=
  { name := "member", type_ := "dhcpmember", original_type := "dhcpmember",
    description := "", readonly := false, writeonly := false, deleteonly := false,
    supports_filtering := false, searchable_by := "", required := false,
    is_array := false, enum := none, supports := "rw", nested_schema := none,
    nested_schema_name := some "NetworkMember" }

/-- Witness for C9 at concrete nested fields. -/
theorem C9_witness :
    getKey (buildProperty cfg0 "network" "options" c9fdArr) "type" =
      some (.str "array") ∧
    getKey (buildProperty cfg0 "network" "options" c9fdArr) "items" =
      some (.obj [("$ref", .str ("#/components/schemas/" ++ "NetworkOptions"))]) ∧
    buildProperty cfg0 "network" "member" c9fdPlain =
      [("$ref", .str ("#/components/schemas/" ++ "NetworkMember"))] ∧
    getKey (refCleanup (pnsfFieldProp cfg0 "Network" c9fdPlain
      (some (RawSchema.mk none none RestrVal.absent [])))) "type" = none ∧
    sOkVals (generate_schemas_for_objects cfg0 [c2s]) = true :=
  have hc := C9_nested_refs_no_ref_type_coexistence cfg0
  ⟨(hc.2.1 "network" "options" c9fdArr "NetworkOptions" rfl).1 rfl |>.1,
   (hc.2.1 "network" "options" c9fdArr "NetworkOptions" rfl).1 rfl |>.2,
   (hc.2.1 "network" "member" c9fdPlain "NetworkMember" rfl).2 rfl,
   ((hc.2.2 "Network" c9fdPlain (RawSchema.mk none none RestrVal.absent [])).2 rfl).2,
   hc.1 [c2s]⟩

end OpenSpec
